import Mathlib

/-!
Game of Life (`src/main.c`): shallow embedding and verified properties.

The embedding follows `src/main.c`.

* `i32` / `i64` values are `Int`, `u64` indices are `Nat`; the `u8` state word and the
  `u8` neighbour counter are `Nat` with an explicit `% 256` at every arithmetic update.
* `Cell** cells` is a list of rows, each a list of cells; `cells[y][x]` is `readCell cells y x`
  and an assignment to `cells[y][x]` is `writeCell cells y x c`.
* The raylib queries (`GetMouseX`, `GetMouseY`, `IsMouseButtonPressed`) are inputs of the
  functions that call them, gathered in `Mouse`.
* `f64` values are exact fractions with a power-of-two denominator (`F64`); every `f64`
  operation of `mouse_coords` is the exact operation followed by `f64_round`, rounding to the
  nearest value with a 53-bit significand, ties to even, as IEEE 754 binary64 arithmetic does.
-/

namespace GameOfLife

/-! ## Layout constants (main.c:8-13) -/

/-- Window width in pixels: `#define SCREEN_WIDTH 1800`. -/
def SCREEN_WIDTH : Nat := 1800

/-- Window height in pixels: `#define SCREEN_HEIGHT 1000`. -/
def SCREEN_HEIGHT : Nat := 1000

/-- Height of the banner above the grid: `#define LAYOUT_TOP 100`. -/
def LAYOUT_TOP : Nat := 100

/-- Edge length of one cell: `#define SQUARE_SIZE 20`. -/
def SQUARE_SIZE : Nat := 20

/-- Number of columns: `#define CELLS_WIDTH SCREEN_WIDTH / SQUARE_SIZE`. The macro has no
parentheses; every integer use in the program (`CELLS_WIDTH - 1`, `x < CELLS_WIDTH`,
`CELLS_WIDTH * sizeof(Cell)`) parses to the value `1800 / 20`. The one floating-point use, in
`mouse_coords`, is expanded textually there, where it parses differently. -/
def CELLS_WIDTH : Nat := SCREEN_WIDTH / SQUARE_SIZE

/-- Number of rows: `#define CELLS_HEIGHT (SCREEN_HEIGHT - LAYOUT_TOP) / SQUARE_SIZE`, with the
same remark as for `CELLS_WIDTH`. -/
def CELLS_HEIGHT : Nat := (SCREEN_HEIGHT - LAYOUT_TOP) / SQUARE_SIZE

/-! ## Buttons (main.c:23-117) -/

/-- The fields of `Button` that the update functions read or write (main.c:23-35). The two
messages and the two colours are only read by the drawing code and are left out. -/
structure Button where
  x : Int
  y : Int
  w : Int
  h : Int
  pressed : Bool
  show_pressed : Bool
  pressed_timer : Int
  deriving DecidableEq, Repr

/-- The pointer state of one frame: `GetMouseX()`, `GetMouseY()` and
`IsMouseButtonPressed(MOUSE_BUTTON_LEFT)`. -/
structure Mouse where
  mouse_x : Int
  mouse_y : Int
  left_pressed : Bool
  deriving DecidableEq, Repr

/-- Embedding of `init_button` (main.c:37-71): `show_pressed` starts equal to `pressed`, the
timer at 0. -/
def init_button (x y w h : Int) (pressed : Bool) : Button :=
  { x := x, y := y, w := w, h := h,
    pressed := pressed, show_pressed := pressed, pressed_timer := 0 }

/-- Embedding of `make_play_button` (main.c:73-76). -/
def make_play_button (x y : Int) : Button := init_button x y 100 60 false

/-- Embedding of `make_clear_button` (main.c:78-81). -/
def make_clear_button (x y : Int) : Button := init_button x y 100 60 false

/-- Embedding of `mouse_pressed_button` (main.c:83-92): the pointer is inside the rectangle
of the button and the left button was pressed this frame. -/
def mouse_pressed_button (button : Button) (m : Mouse) : Bool :=
  decide (m.mouse_x ≥ button.x)
    && decide (m.mouse_y ≥ button.y)
    && decide (m.mouse_x < button.x + button.w)
    && decide (m.mouse_y < button.y + button.h)
    && m.left_pressed

/-- Embedding of `toggle_button_event` (main.c:94-99). -/
def toggle_button_event (button : Button) (m : Mouse) : Button :=
  if mouse_pressed_button button m then
    let button := { button with pressed := !button.pressed }
    { button with show_pressed := button.pressed }
  else button

/-- Embedding of `press_button_event` (main.c:101-117). The click branch returns without
touching `pressed_timer`; the other branch clears `pressed` and then either unlatches (timer
above 30) or increments the timer. -/
def press_button_event (button : Button) (m : Mouse) : Button :=
  if !button.show_pressed && mouse_pressed_button button m then
    { button with pressed := true, show_pressed := true }
  else
    let button := { button with pressed := false }
    if button.pressed_timer > 30 then
      { button with show_pressed := false, pressed_timer := 0 }
    else
      { button with pressed_timer := button.pressed_timer + 1 }

/-- The button after a sequence of frames, each fed to `toggle_button_event`. -/
def toggle_frames (button : Button) (ms : List Mouse) : Button :=
  ms.foldl toggle_button_event button

/-- The button after a sequence of frames, each fed to `press_button_event`. -/
def press_frames (button : Button) (ms : List Mouse) : Button :=
  ms.foldl press_button_event button

/-- States of a button reachable from `start` by calls of `press_button_event`. -/
inductive PressReachable (start : Button) : Button → Prop
  | init : PressReachable start start
  | step (b : Button) (m : Mouse) : PressReachable start b →
      PressReachable start (press_button_event b m)

/-! ## Cells and the grid (main.c:145-175) -/

/-- The `Cell` struct (main.c:145-149): pixel position and the `u8` state word. -/
structure Cell where
  x : Int
  y : Int
  state : Nat
  deriving DecidableEq, Repr, Inhabited

/-- The grid `Cell** cells`: a list of rows. -/
abbrev Grid := List (List Cell)

/-- The read `cells[y][x]`. -/
def readCell (cells : Grid) (y x : Nat) : Cell :=
  (cells.getD y []).getD x default

/-- The assignment `cells[y][x] = c`. -/
def writeCell (cells : Grid) (y x : Nat) (c : Cell) : Grid :=
  cells.set y ((cells.getD y []).set x c)

/-- A grid of the allocated shape: `CELLS_HEIGHT` rows of `CELLS_WIDTH` cells each. -/
def WellFormed (cells : Grid) : Prop :=
  cells.length = CELLS_HEIGHT ∧ ∀ row ∈ cells, row.length = CELLS_WIDTH

/-- Embedding of `cell_state` (main.c:151-153): bit 0 of the state word. -/
def cell_state (cell : Cell) : Bool :=
  (cell.state &&& 0x01) == 0x01

/-- Embedding of `init_cells` (main.c:155-169): row `y`, column `x` holds the pixel position
`(x * 20, y * 20 + 100)` and state 0. -/
def init_cells : Grid :=
  (List.range CELLS_HEIGHT).map fun (y : Nat) =>
    (List.range CELLS_WIDTH).map fun (x : Nat) =>
      { x := (x : Int) * SQUARE_SIZE, y := (y : Int) * SQUARE_SIZE + LAYOUT_TOP, state := 0 }

/-! ## Generation advance (main.c:192-247) -/

/-- Embedding of `count_neighbors` (main.c:192-218). Each `count++` is on a `u8`. The
subtractions `x - 1`, `y - 1` stand behind the guards `check_left`, `check_up`, as in the
source, where `&&` evaluates them only when the guard holds. -/
def count_neighbors (cells : Grid) (x y : Nat) : Nat :=
  let check_left := decide (x > 0)
  let check_right := decide (x < CELLS_WIDTH - 1)
  let check_up := decide (y > 0)
  let check_down := decide (y < CELLS_HEIGHT - 1)
  let count := 0
  let count := if check_left && check_up && cell_state (readCell cells (y - 1) (x - 1))
    then (count + 1) % 256 else count
  let count := if check_right && check_up && cell_state (readCell cells (y - 1) (x + 1))
    then (count + 1) % 256 else count
  let count := if check_left && check_down && cell_state (readCell cells (y + 1) (x - 1))
    then (count + 1) % 256 else count
  let count := if check_right && check_down && cell_state (readCell cells (y + 1) (x + 1))
    then (count + 1) % 256 else count
  let count := if check_left && cell_state (readCell cells y (x - 1))
    then (count + 1) % 256 else count
  let count := if check_right && cell_state (readCell cells y (x + 1))
    then (count + 1) % 256 else count
  let count := if check_up && cell_state (readCell cells (y - 1) x)
    then (count + 1) % 256 else count
  let count := if check_down && cell_state (readCell cells (y + 1) x)
    then (count + 1) % 256 else count
  count

/-- Embedding of `apply_rule` (main.c:220-233). -/
def apply_rule (cell_state : Bool) (neighbor_count : Nat) : Bool :=
  if cell_state then
    match neighbor_count with
    | 2 => true
    | 3 => true
    | _ => false
  else if neighbor_count == 3 then true
  else false

/-- Body of the first loop nest of `next_game_move` (main.c:238-240):
`cells[y][x].state += apply_rule(state, neighbor_count) ? 2 : 0` on a `u8`. -/
def compute_cell (cells : Grid) (x y : Nat) : Grid :=
  let neighbor_count := count_neighbors cells x y
  let state := cell_state (readCell cells y x)
  let cell := readCell cells y x
  writeCell cells y x
    { cell with state := (cell.state + (if apply_rule state neighbor_count then 2 else 0)) % 256 }

/-- Body of the second loop nest of `next_game_move` (main.c:245):
`cells[y][x].state >>= 1`. -/
def shift_cell (cells : Grid) (x y : Nat) : Grid :=
  let cell := readCell cells y x
  writeCell cells y x { cell with state := cell.state >>> 1 }

/-- First loop nest of `next_game_move` (main.c:236-242), rows outside, columns inside. -/
def compute_pass (cells : Grid) : Grid :=
  (List.range CELLS_HEIGHT).foldl
    (fun cells y => (List.range CELLS_WIDTH).foldl (fun cells x => compute_cell cells x y) cells)
    cells

/-- Second loop nest of `next_game_move` (main.c:243-246). -/
def swap_pass (cells : Grid) : Grid :=
  (List.range CELLS_HEIGHT).foldl
    (fun cells y => (List.range CELLS_WIDTH).foldl (fun cells x => shift_cell cells x y) cells)
    cells

/-- Embedding of `next_game_move` (main.c:235-247): the compute pass, then the swap pass, both
in place on the same grid. -/
def next_game_move (cells : Grid) : Grid :=
  swap_pass (compute_pass cells)

/-! ## Reference semantics taken from the specification

These definitions follow the words of the specification and are what the code is compared
with. -/

/-- The eight non-zero offsets `(dx, dy)` of the Moore neighbourhood. -/
def moore_offsets : List (Int × Int) :=
  [(-1, -1), (1, -1), (-1, 1), (1, 1), (-1, 0), (1, 0), (0, -1), (0, 1)]

/-- A position lies inside the grid. -/
def in_grid (x y : Int) : Bool :=
  decide (0 ≤ x) && decide (x < CELLS_WIDTH) && decide (0 ≤ y) && decide (y < CELLS_HEIGHT)

/-- A position is inside the grid and its cell has bit 0 set. -/
def live_at (cells : Grid) (x y : Int) : Bool :=
  in_grid x y && cell_state (readCell cells y.toNat x.toNat)

/-- Number of live cells among the neighbours of `(x, y)` that exist (clipped boundary, the
cell itself excluded). -/
def live_neighbors (cells : Grid) (x y : Nat) : Nat :=
  (moore_offsets.filter fun d => live_at cells ((x : Int) + d.1) ((y : Int) + d.2)).length

/-- The rule B3/S23 in the words of the specification: a live cell survives iff it has 2 or 3
live neighbours, a dead cell becomes alive iff it has exactly 3. -/
def rule_B3S23 (alive : Bool) (n : Nat) : Bool :=
  (alive && (n == 2 || n == 3)) || (!alive && n == 3)

/-- Two-buffer reference implementation: a fresh grid computed from the old one only. Each
cell keeps its stored position; its state word is 1 if the rule yields alive, else 0. -/
def two_buffer_next (old : Grid) : Grid :=
  (List.range CELLS_HEIGHT).map fun (y : Nat) =>
    (List.range CELLS_WIDTH).map fun (x : Nat) =>
      { readCell old y x with
        state := if rule_B3S23 (cell_state (readCell old y x)) (live_neighbors old x y)
                 then 1 else 0 }

/-! ## Input mapping (main.c:249-271) -/

/-- A finite `f64` value, held exactly as the fraction `num / den`, `den` a power of two. -/
structure F64 where
  num : Int
  den : Nat
  deriving DecidableEq, Repr

/-- Powers of two `(sa, sd)` that bring the positive ratio `a / d` to a 53-bit integer part:
`2^52 ≤ (a * sa) / (d * sd) < 2^53`. Each step doubles one of the two; the first argument
bounds the number of steps, and 2200 of them cover the whole exponent range of `f64`. -/
def f64_scale : Nat → Nat → Nat → Nat → Nat → Nat × Nat
  | 0, _, _, sa, sd => (sa, sd)
  | fuel + 1, a, d, sa, sd =>
    if (a * sa) / (d * sd) < 2 ^ 52 then f64_scale fuel a d (2 * sa) sd
    else if 2 ^ 53 ≤ (a * sa) / (d * sd) then f64_scale fuel a d sa (2 * sd)
    else (sa, sd)

/-- Rounding of the exact value `n / d`, `d > 0`, to the nearest `f64`, ties to even (the
default rounding of IEEE 754 binary64): the magnitude is scaled to a 53-bit integer part
`q` with remainder `r`, and `q` is incremented when the remainder is above one half, or equal
to one half with `q` odd. Overflow and subnormal results are not modelled; a value computed
by `mouse_coords` from `i32` pointer coordinates is 0 or has magnitude between `2^-11` and
`2^32`. -/
def f64_round (n : Int) (d : Nat) : F64 :=
  if n = 0 then { num := 0, den := 1 }
  else
    let a := n.natAbs
    let s := f64_scale 2200 a d 1 1
    let q := (a * s.1) / (d * s.2)
    let r := (a * s.1) % (d * s.2)
    let q := if 2 * r > d * s.2 ∨ (2 * r = d * s.2 ∧ q % 2 = 1) then q + 1 else q
    { num := if n < 0 then -((q * s.2 : Nat) : Int) else ((q * s.2 : Nat) : Int), den := s.1 }

/-- Conversion of an integer to `f64`: the cast `(f64)i`, and the promotion of an `int`
operand of an `f64` operation. -/
def f64_of_int (i : Int) : F64 := f64_round i 1

/-- The `f64` subtraction `a - b`. -/
def f64_sub (a b : F64) : F64 :=
  f64_round (a.num * b.den - b.num * a.den) (a.den * b.den)

/-- The `f64` multiplication `a * b`. -/
def f64_mul (a b : F64) : F64 :=
  f64_round (a.num * b.num) (a.den * b.den)

/-- The `f64` division `a / b` by a non-zero `b`. -/
def f64_div (a b : F64) : F64 :=
  f64_round (a.num * b.den * b.num.sign) (a.den * b.num.natAbs)

/-- The call `floor(a)` followed by the cast to `i64`. -/
def f64_floor (a : F64) : Int := a.num / (a.den : Int)

/-- Embedding of `mouse_coords` (main.c:249-255) with its `f64` arithmetic. The macros are
expanded as the preprocessor does: `(mouse_x / SCREEN_WIDTH) * CELLS_WIDTH` is
`(mouse_x / 1800) * 1800 / 20`, that is `((mouse_x / 1800) * 1800) / 20` with three rounded
operations, and `(mouse_y / (SCREEN_HEIGHT - LAYOUT_TOP)) * CELLS_HEIGHT` is
`(mouse_y / (1000 - 100)) * (1000 - 100) / 20`, where `1000 - 100` is `int` arithmetic. -/
def mouse_coords (m : Mouse) : Int × Int :=
  let mouse_x := f64_of_int m.mouse_x
  let mouse_y := f64_sub (f64_of_int m.mouse_y) (f64_of_int LAYOUT_TOP)
  (f64_floor (f64_div
      (f64_mul (f64_div mouse_x (f64_of_int SCREEN_WIDTH)) (f64_of_int SCREEN_WIDTH))
      (f64_of_int SQUARE_SIZE)),
   f64_floor (f64_div
      (f64_mul (f64_div mouse_y (f64_of_int ((SCREEN_HEIGHT - LAYOUT_TOP : Nat) : Int)))
        (f64_of_int ((SCREEN_HEIGHT - LAYOUT_TOP : Nat) : Int)))
      (f64_of_int SQUARE_SIZE)))

/-- Embedding of `valid_cell_coords` (main.c:257-262). -/
def valid_cell_coords (coords : Int × Int) : Bool :=
  decide (coords.1 ≥ 0)
    && decide (coords.1 < (CELLS_WIDTH : Int))
    && decide (coords.2 ≥ 0)
    && decide (coords.2 < (CELLS_HEIGHT : Int))

/-- Embedding of `toggle_cell_event` (main.c:264-267). -/
def toggle_cell_event (coords : Int × Int) (m : Mouse) : Bool :=
  valid_cell_coords coords && m.left_pressed

/-- Embedding of `toggle_cell` (main.c:269-271). -/
def toggle_cell (cells : Grid) (x y : Nat) : Grid :=
  let cell := readCell cells y x
  writeCell cells y x { cell with state := if cell_state cell then 0 else 1 }

/-! ## Auxiliary definitions used to state and prove the properties -/

/-- Frame with the pointer at the window origin and no click. -/
def idle_frame : Mouse := { mouse_x := 0, mouse_y := 0, left_pressed := false }

/-- Frame with a left click inside the clear button, which `main` places at `(1680, 20)`. -/
def clear_click : Mouse := { mouse_x := 1700, mouse_y := 30, left_pressed := true }

/-- Frame with a left click inside the play button, which `main` places at `(20, 20)`. -/
def play_click : Mouse := { mouse_x := 30, mouse_y := 30, left_pressed := true }

/-- Loop invariant of a row-major in-place traversal that has reached row `y`, column `n`:
the grid `g` keeps its shape, every cell already visited holds `T j i`, every other cell is
as in the grid `g0` at loop entry. -/
def PartialUpdate (T : Nat → Nat → Cell) (g0 g : Grid) (y n : Nat) : Prop :=
  WellFormed g ∧ ∀ j i, j < CELLS_HEIGHT → i < CELLS_WIDTH →
    readCell g j i = if j < y ∨ (j = y ∧ i < n) then T j i else readCell g0 j i

/-- The cell that the compute pass stores at row `y`, column `x`, in terms of the grid `g0`
before the pass. -/
def marked_cell (g0 : Grid) (y x : Nat) : Cell :=
  { readCell g0 y x with
    state := ((readCell g0 y x).state
      + (if apply_rule (cell_state (readCell g0 y x)) (count_neighbors g0 x y) then 2 else 0))
      % 256 }

/-- The cell that the swap pass stores at row `y`, column `x`, in terms of the grid `g1`
before the pass. -/
def shifted_cell (g1 : Grid) (y x : Nat) : Cell :=
  { readCell g1 y x with state := (readCell g1 y x).state >>> 1 }

/-- The live cells of the grid are exactly those of the pattern `alive` (row `j`, column `i`),
and every state word is 0 or 1. -/
def HasPattern (cells : Grid) (alive : Nat → Nat → Bool) : Prop :=
  ∀ j i, j < CELLS_HEIGHT → i < CELLS_WIDTH →
    (readCell cells j i).state = if alive j i then 1 else 0

/-- The horizontal blinker centred at column `x`, row `y`: the cells `(x-1, y)`, `(x, y)`,
`(x+1, y)`. -/
def blinker_row (x y : Nat) (j i : Nat) : Bool :=
  decide (j = y ∧ (i + 1 = x ∨ i = x ∨ i = x + 1))

/-- The vertical blinker centred at column `x`, row `y`: the cells `(x, y-1)`, `(x, y)`,
`(x, y+1)`. -/
def blinker_col (x y : Nat) (j i : Nat) : Bool :=
  decide (i = x ∧ (j + 1 = y ∨ j = y ∨ j = y + 1))

/-- Number of the eight offsets, in the order of `moore_offsets`, at which `p` holds. -/
def window_count (p : Int → Int → Bool) (u v : Int) : Nat :=
  (p (u + -1) (v + -1)).toNat + (p (u + 1) (v + -1)).toNat + (p (u + -1) (v + 1)).toNat
  + (p (u + 1) (v + 1)).toNat + (p (u + -1) (v + 0)).toNat + (p (u + 1) (v + 0)).toNat
  + (p (u + 0) (v + -1)).toNat + (p (u + 0) (v + 1)).toNat

/-- The horizontal blinker in coordinates relative to its centre. -/
def row_shape (u v : Int) : Bool := decide (v = 0 ∧ -1 ≤ u ∧ u ≤ 1)

/-- The vertical blinker in coordinates relative to its centre. -/
def col_shape (u v : Int) : Bool := decide (u = 0 ∧ -1 ≤ v ∧ v ≤ 1)

/-! ## Reachable grids, prefixes of the compute pass, array accesses, the frame of `main` -/

/-- Grids reachable from `init_cells` by `toggle_cell` calls with in-range coordinates and by
`next_game_move` calls. -/
inductive GridReachable : Grid → Prop
  | init : GridReachable init_cells
  | toggle (cells : Grid) (x y : Nat) : GridReachable cells → x < CELLS_WIDTH →
      y < CELLS_HEIGHT → GridReachable (toggle_cell cells x y)
  | advance (cells : Grid) : GridReachable cells → GridReachable (next_game_move cells)

/-- The grid at the point where the first loop nest of `next_game_move` (main.c:236-242) has
completed rows `0 .. y-1` and the columns `0 .. n-1` of row `y`. -/
def compute_upto (cells : Grid) (y n : Nat) : Grid :=
  (List.range n).foldl (fun cells x => compute_cell cells x y)
    ((List.range y).foldl
      (fun cells y =>
        (List.range CELLS_WIDTH).foldl (fun cells x => compute_cell cells x y) cells)
      cells)

/-- The index expression `a - 1` on `u64` operands: it wraps to `2^64 - 1` at `a = 0`. -/
def u64_pred (a : Nat) : Nat := (a + 2 ^ 64 - 1) % 2 ^ 64

/-- The index expression `a + 1` on `u64` operands. -/
def u64_succ (a : Nat) : Nat := (a + 1) % 2 ^ 64

/-- The array reads `cells[row][col]` that `count_neighbors(cells, x, y)` performs
(main.c:200-215), as `(row, col)` pairs in program order. Each read is the last operand of a
chain of `&&`, so it happens exactly when the guards before it hold; the index expressions
are evaluated on `u64`. -/
def count_neighbors_reads (x y : Nat) : List (Nat × Nat) :=
  let check_left := decide (x > 0)
  let check_right := decide (x < CELLS_WIDTH - 1)
  let check_up := decide (y > 0)
  let check_down := decide (y < CELLS_HEIGHT - 1)
  (if check_left && check_up then [(u64_pred y, u64_pred x)] else [])
  ++ (if check_right && check_up then [(u64_pred y, u64_succ x)] else [])
  ++ (if check_left && check_down then [(u64_succ y, u64_pred x)] else [])
  ++ (if check_right && check_down then [(u64_succ y, u64_succ x)] else [])
  ++ (if check_left then [(y, u64_pred x)] else [])
  ++ (if check_right then [(y, u64_succ x)] else [])
  ++ (if check_up then [(u64_pred y, x)] else [])
  ++ (if check_down then [(u64_succ y, x)] else [])

/-- All array accesses `cells[row][col]` of one call of `next_game_move` (main.c:235-247), as
`(row, col)` pairs: in the first loop nest the reads of `count_neighbors`, the read of
`cells[y][x]` for `cell_state` and the update of `cells[y][x].state`; in the second loop nest
the update of `cells[y][x].state`. -/
def next_game_move_accesses : List (Nat × Nat) :=
  ((List.range CELLS_HEIGHT).flatMap fun (y : Nat) =>
    (List.range CELLS_WIDTH).flatMap fun (x : Nat) =>
      count_neighbors_reads x y ++ [(y, x), (y, x)])
  ++ ((List.range CELLS_HEIGHT).flatMap fun (y : Nat) =>
    (List.range CELLS_WIDTH).map fun (x : Nat) => (y, x))

/-- The state that one iteration of the loop of `main` reads and writes (main.c:277-279). -/
structure Game where
  cells : Grid
  play_button : Button
  clear_button : Button

/-- The conversion of an `i64` argument to a `u64` parameter, as at the call
`toggle_cell(cells, coords[0], coords[1])` (main.c:286). -/
def u64_of_i64 (c : Int) : Nat := (c % 2 ^ 64).toNat

/-- One iteration of the loop of `main` (main.c:283-303), drawing left out: map the pointer,
toggle the cell under a click, update both buttons, advance the generation if the play
button is on, then replace the grid by `init_cells()` if the clear button fired. -/
def main_frame (g : Game) (m : Mouse) : Game :=
  let coords := mouse_coords m
  let cells :=
    if toggle_cell_event coords m then
      toggle_cell g.cells (u64_of_i64 coords.1) (u64_of_i64 coords.2)
    else g.cells
  let play_button := toggle_button_event g.play_button m
  let clear_button := press_button_event g.clear_button m
  let cells := if play_button.pressed then next_game_move cells else cells
  let cells := if clear_button.pressed then init_cells else cells
  { cells := cells, play_button := play_button, clear_button := clear_button }

/-! ## Reads and writes of the grid -/

theorem readCell_writeCell_same (cells : Grid) (y x : Nat) (c : Cell)
    (hy : y < cells.length) (hx : x < (cells.getD y []).length) :
    readCell (writeCell cells y x c) y x = c := by
  have hx2 : x < (cells[y]).length := by
    simpa [List.getD_eq_getElem?_getD, hy] using hx
  simp [readCell, writeCell, List.getD_eq_getElem?_getD, List.getElem?_set, hy, hx2]

theorem readCell_writeCell_other (cells : Grid) (y x j i : Nat) (c : Cell)
    (h : ¬ (j = y ∧ i = x)) :
    readCell (writeCell cells y x c) j i = readCell cells j i := by
  unfold readCell writeCell
  by_cases hj : y = j
  · subst hj
    have hi : x ≠ i := fun e => h ⟨rfl, e.symm⟩
    by_cases hy : y < cells.length
    · simp [List.getD_eq_getElem?_getD, List.getElem?_set, hy, hi]
    · rw [List.set_eq_of_length_le (by omega)]
  · simp [List.getD_eq_getElem?_getD, List.getElem?_set, hj]

theorem wellFormed_writeCell (cells : Grid) (y x : Nat) (c : Cell) (h : WellFormed cells) :
    WellFormed (writeCell cells y x c) := by
  obtain ⟨hl, hr⟩ := h
  refine ⟨by simp [writeCell, hl], ?_⟩
  intro row hrow
  unfold writeCell at hrow
  rcases List.mem_or_eq_of_mem_set hrow with h1 | h1
  · exact hr row h1
  · subst h1
    simp only [List.length_set]
    by_cases hy : y < cells.length
    · apply hr
      simp [List.getD_eq_getElem?_getD, hy]
    · rw [List.set_eq_of_length_le (by omega)] at hrow
      have := hr _ hrow
      simpa using this

theorem wellFormed_row_length (cells : Grid) (h : WellFormed cells) (y : Nat) (hy : y < CELLS_HEIGHT) :
    (cells.getD y []).length = CELLS_WIDTH := by
  obtain ⟨hl, hr⟩ := h
  apply hr
  have : y < cells.length := by omega
  simp [List.getD_eq_getElem?_getD, this]

theorem readCell_writeCell (cells : Grid) (h : WellFormed cells) (y x j i : Nat) (c : Cell)
    (hy : y < CELLS_HEIGHT) (hx : x < CELLS_WIDTH) :
    readCell (writeCell cells y x c) j i = if j = y ∧ i = x then c else readCell cells j i := by
  by_cases hji : j = y ∧ i = x
  · obtain ⟨rfl, rfl⟩ := hji
    rw [if_pos ⟨rfl, rfl⟩]
    apply readCell_writeCell_same
    · rw [h.1]; exact hy
    · rw [wellFormed_row_length cells h j hy]; exact hx
  · rw [if_neg hji]
    exact readCell_writeCell_other cells y x j i c hji

/-! ## The row-major in-place loop -/

theorem partialUpdate_step (T : Nat → Nat → Cell) (g0 g : Grid) (y n : Nat)
    (hy : y < CELLS_HEIGHT) (hn : n < CELLS_WIDTH) (h : PartialUpdate T g0 g y n) :
    PartialUpdate T g0 (writeCell g y n (T y n)) y (n + 1) := by
  obtain ⟨hwf, hcells⟩ := h
  refine ⟨wellFormed_writeCell g y n _ hwf, ?_⟩
  intro j i hj hi
  rw [readCell_writeCell g hwf y n j i _ hy hn, hcells j i hj hi]
  by_cases hji : j = y ∧ i = n
  · obtain ⟨rfl, rfl⟩ := hji
    simp
  · rw [if_neg hji]
    have : (j < y ∨ j = y ∧ i < n + 1) ↔ (j < y ∨ j = y ∧ i < n) := by
      constructor
      · rintro (h1 | ⟨h1, h2⟩)
        · exact Or.inl h1
        · right
          refine ⟨h1, ?_⟩
          have : i ≠ n := fun e => hji ⟨h1, e⟩
          omega
      · rintro (h1 | ⟨h1, h2⟩)
        · exact Or.inl h1
        · exact Or.inr ⟨h1, by omega⟩
    simp only [this]

theorem partialUpdate_next_row (T : Nat → Nat → Cell) (g0 g : Grid) (y : Nat)
    (h : PartialUpdate T g0 g y CELLS_WIDTH) : PartialUpdate T g0 g (y + 1) 0 := by
  obtain ⟨hwf, hcells⟩ := h
  refine ⟨hwf, ?_⟩
  intro j i hj hi
  rw [hcells j i hj hi]
  have : (j < y ∨ j = y ∧ i < CELLS_WIDTH) ↔ (j < y + 1 ∨ j = y + 1 ∧ i < 0) := by
    constructor
    · rintro (h1 | ⟨h1, _⟩)
      · exact Or.inl (by omega)
      · exact Or.inl (by omega)
    · rintro (h1 | ⟨_, h2⟩)
      · by_cases e : j = y
        · exact Or.inr ⟨e, hi⟩
        · exact Or.inl (by omega)
      · omega
  simp only [this]

theorem row_loop (body : Grid → Nat → Nat → Grid) (T : Nat → Nat → Cell) (g0 : Grid)
    (y : Nat) (hy : y < CELLS_HEIGHT)
    (hbody : ∀ g x, x < CELLS_WIDTH → PartialUpdate T g0 g y x →
      body g x y = writeCell g y x (T y x))
    (g : Grid) (hg : PartialUpdate T g0 g y 0) (n : Nat) (hn : n ≤ CELLS_WIDTH) :
    PartialUpdate T g0 ((List.range n).foldl (fun g x => body g x y) g) y n := by
  induction n with
  | zero => simpa using hg
  | succ n ih =>
    have ih := ih (by omega)
    rw [List.range_succ, List.foldl_append]
    simp only [List.foldl_cons, List.foldl_nil]
    rw [hbody _ n (by omega) ih]
    exact partialUpdate_step T g0 _ y n hy (by omega) ih

theorem grid_loop (body : Grid → Nat → Nat → Grid) (T : Nat → Nat → Cell) (g0 : Grid)
    (hbody : ∀ g x y, x < CELLS_WIDTH → y < CELLS_HEIGHT → PartialUpdate T g0 g y x →
      body g x y = writeCell g y x (T y x))
    (hg : WellFormed g0) (m : Nat) (hm : m ≤ CELLS_HEIGHT) :
    PartialUpdate T g0 ((List.range m).foldl
      (fun g y => (List.range CELLS_WIDTH).foldl (fun g x => body g x y) g) g0) m 0 := by
  induction m with
  | zero =>
    refine ⟨hg, ?_⟩
    intro j i _ _
    simp
  | succ m ih =>
    have ih := ih (by omega)
    rw [List.range_succ, List.foldl_append]
    simp only [List.foldl_cons, List.foldl_nil]
    apply partialUpdate_next_row
    exact row_loop body T g0 m (by omega) (fun g x hx h => hbody g x m hx (by omega) h) _ ih
      CELLS_WIDTH (le_refl _)

theorem grid_loop_full (body : Grid → Nat → Nat → Grid) (T : Nat → Nat → Cell) (g0 : Grid)
    (hbody : ∀ g x y, x < CELLS_WIDTH → y < CELLS_HEIGHT → PartialUpdate T g0 g y x →
      body g x y = writeCell g y x (T y x))
    (hg : WellFormed g0) :
    WellFormed ((List.range CELLS_HEIGHT).foldl
      (fun g y => (List.range CELLS_WIDTH).foldl (fun g x => body g x y) g) g0) ∧
    ∀ j i, j < CELLS_HEIGHT → i < CELLS_WIDTH →
      readCell ((List.range CELLS_HEIGHT).foldl
      (fun g y => (List.range CELLS_WIDTH).foldl (fun g x => body g x y) g) g0) j i = T j i := by
  obtain ⟨hwf, hcells⟩ := grid_loop body T g0 hbody hg CELLS_HEIGHT (le_refl _)
  refine ⟨hwf, ?_⟩
  intro j i hj hi
  rw [hcells j i hj hi, if_pos (Or.inl hj)]

/-! ## Neighbour counting -/

theorem CELLS_WIDTH_eq : CELLS_WIDTH = 90 := by decide
theorem CELLS_HEIGHT_eq : CELLS_HEIGHT = 45 := by decide

theorem u8_incr (b : Bool) (c : Nat) (hc : c < 255) :
    (if b then (c + 1) % 256 else c) = c + b.toNat := by
  cases b
  · simp
  · simp only [if_true, Bool.toNat_true]
    exact Nat.mod_eq_of_lt (by omega)

theorem count_neighbors_sum (cells : Grid) (x y : Nat) :
    count_neighbors cells x y =
      (decide (x > 0) && decide (y > 0) && cell_state (readCell cells (y - 1) (x - 1))).toNat
      + (decide (x < CELLS_WIDTH - 1) && decide (y > 0) && cell_state (readCell cells (y - 1) (x + 1))).toNat
      + (decide (x > 0) && decide (y < CELLS_HEIGHT - 1) && cell_state (readCell cells (y + 1) (x - 1))).toNat
      + (decide (x < CELLS_WIDTH - 1) && decide (y < CELLS_HEIGHT - 1) && cell_state (readCell cells (y + 1) (x + 1))).toNat
      + (decide (x > 0) && cell_state (readCell cells y (x - 1))).toNat
      + (decide (x < CELLS_WIDTH - 1) && cell_state (readCell cells y (x + 1))).toNat
      + (decide (y > 0) && cell_state (readCell cells (y - 1) x)).toNat
      + (decide (y < CELLS_HEIGHT - 1) && cell_state (readCell cells (y + 1) x)).toNat := by
  unfold count_neighbors
  simp only []
  have hb : ∀ b : Bool, b.toNat ≤ 1 := fun b => by cases b <;> simp
  generalize (decide (x > 0) && decide (y > 0) && cell_state (readCell cells (y - 1) (x - 1))) = b1
  generalize (decide (x < CELLS_WIDTH - 1) && decide (y > 0) && cell_state (readCell cells (y - 1) (x + 1))) = b2
  generalize (decide (x > 0) && decide (y < CELLS_HEIGHT - 1) && cell_state (readCell cells (y + 1) (x - 1))) = b3
  generalize (decide (x < CELLS_WIDTH - 1) && decide (y < CELLS_HEIGHT - 1) && cell_state (readCell cells (y + 1) (x + 1))) = b4
  generalize (decide (x > 0) && cell_state (readCell cells y (x - 1))) = b5
  generalize (decide (x < CELLS_WIDTH - 1) && cell_state (readCell cells y (x + 1))) = b6
  generalize (decide (y > 0) && cell_state (readCell cells (y - 1) x)) = b7
  generalize (decide (y < CELLS_HEIGHT - 1) && cell_state (readCell cells (y + 1) x)) = b8
  have := hb b1; have := hb b2; have := hb b3; have := hb b4
  have := hb b5; have := hb b6; have := hb b7; have := hb b8
  rw [u8_incr b1 0 (by omega)]
  rw [u8_incr b2 _ (by omega)]
  rw [u8_incr b3 _ (by omega)]
  rw [u8_incr b4 _ (by omega)]
  rw [u8_incr b5 _ (by omega)]
  rw [u8_incr b6 _ (by omega)]
  rw [u8_incr b7 _ (by omega)]
  rw [u8_incr b8 _ (by omega)]
  omega

theorem filter_length_cons {α : Type} (p : α → Bool) (a : α) (l : List α) :
    (List.filter p (a :: l)).length = (p a).toNat + (List.filter p l).length := by
  cases h : p a
  · simp [List.filter, h]
  · simp [List.filter, h]; omega

theorem live_neighbors_sum (cells : Grid) (x y : Nat) :
    live_neighbors cells x y =
      (live_at cells ((x : Int) + -1) ((y : Int) + -1)).toNat
      + (live_at cells ((x : Int) + 1) ((y : Int) + -1)).toNat
      + (live_at cells ((x : Int) + -1) ((y : Int) + 1)).toNat
      + (live_at cells ((x : Int) + 1) ((y : Int) + 1)).toNat
      + (live_at cells ((x : Int) + -1) ((y : Int) + 0)).toNat
      + (live_at cells ((x : Int) + 1) ((y : Int) + 0)).toNat
      + (live_at cells ((x : Int) + 0) ((y : Int) + -1)).toNat
      + (live_at cells ((x : Int) + 0) ((y : Int) + 1)).toNat := by
  simp only [live_neighbors, moore_offsets, filter_length_cons, List.filter_nil, List.length_nil]
  omega

theorem live_at_offset (cells : Grid) (x y : Nat) (dx dy : Int) (x2 y2 : Nat) (cx cy : Prop)
    [Decidable cx] [Decidable cy]
    (hcx : cx ↔ (0 ≤ (x : Int) + dx ∧ (x : Int) + dx < CELLS_WIDTH))
    (hcy : cy ↔ (0 ≤ (y : Int) + dy ∧ (y : Int) + dy < CELLS_HEIGHT))
    (hx2 : cx → ((x : Int) + dx).toNat = x2) (hy2 : cy → ((y : Int) + dy).toNat = y2) :
    live_at cells ((x : Int) + dx) ((y : Int) + dy)
      = (decide cx && decide cy && cell_state (readCell cells y2 x2)) := by
  unfold live_at in_grid
  by_cases h1 : cx
  · by_cases h2 : cy
    · rw [hx2 h1, hy2 h2]
      have a := hcx.mp h1
      have b := hcy.mp h2
      simp [h1, h2, a.1, a.2, b.1, b.2]
    · have : ¬ (0 ≤ (y : Int) + dy ∧ (y : Int) + dy < CELLS_HEIGHT) := fun e => h2 (hcy.mpr e)
      have : (decide (0 ≤ (y : Int) + dy) && decide ((y : Int) + dy < CELLS_HEIGHT)) = false := by
        simpa using this
      simp only [h2, decide_False, Bool.and_false, Bool.false_and, Bool.and_assoc]
      rw [← Bool.and_assoc (decide (0 ≤ (y : Int) + dy)), this]
      simp
  · have : ¬ (0 ≤ (x : Int) + dx ∧ (x : Int) + dx < CELLS_WIDTH) := fun e => h1 (hcx.mpr e)
    have : (decide (0 ≤ (x : Int) + dx) && decide ((x : Int) + dx < CELLS_WIDTH)) = false := by
      simpa using this
    simp [h1, this]

theorem count_neighbors_eq_live_neighbors (cells : Grid) (x y : Nat)
    (hx : x < CELLS_WIDTH) (hy : y < CELLS_HEIGHT) :
    count_neighbors cells x y = live_neighbors cells x y := by
  rw [count_neighbors_sum, live_neighbors_sum]
  rw [CELLS_WIDTH_eq] at hx
  rw [CELLS_HEIGHT_eq] at hy
  have hl : (x > 0) ↔ (0 ≤ (x : Int) + -1 ∧ (x : Int) + -1 < CELLS_WIDTH) := by
    rw [CELLS_WIDTH_eq]; omega
  have hr : (x < CELLS_WIDTH - 1) ↔ (0 ≤ (x : Int) + 1 ∧ (x : Int) + 1 < CELLS_WIDTH) := by
    rw [CELLS_WIDTH_eq]; omega
  have hu : (y > 0) ↔ (0 ≤ (y : Int) + -1 ∧ (y : Int) + -1 < CELLS_HEIGHT) := by
    rw [CELLS_HEIGHT_eq]; omega
  have hd : (y < CELLS_HEIGHT - 1) ↔ (0 ≤ (y : Int) + 1 ∧ (y : Int) + 1 < CELLS_HEIGHT) := by
    rw [CELLS_HEIGHT_eq]; omega
  have hx0 : True ↔ (0 ≤ (x : Int) + 0 ∧ (x : Int) + 0 < CELLS_WIDTH) := by
    rw [CELLS_WIDTH_eq]; exact ⟨fun _ => ⟨by omega, by omega⟩, fun _ => trivial⟩
  have hy0 : True ↔ (0 ≤ (y : Int) + 0 ∧ (y : Int) + 0 < CELLS_HEIGHT) := by
    rw [CELLS_HEIGHT_eq]; exact ⟨fun _ => ⟨by omega, by omega⟩, fun _ => trivial⟩
  rw [live_at_offset cells x y (-1) (-1) (x - 1) (y - 1) (x > 0) (y > 0) hl hu
      (fun _ => by omega) (fun _ => by omega)]
  rw [live_at_offset cells x y 1 (-1) (x + 1) (y - 1) (x < CELLS_WIDTH - 1) (y > 0) hr hu
      (fun _ => by omega) (fun _ => by omega)]
  rw [live_at_offset cells x y (-1) 1 (x - 1) (y + 1) (x > 0) (y < CELLS_HEIGHT - 1) hl hd
      (fun _ => by omega) (fun _ => by omega)]
  rw [live_at_offset cells x y 1 1 (x + 1) (y + 1) (x < CELLS_WIDTH - 1) (y < CELLS_HEIGHT - 1)
      hr hd (fun _ => by omega) (fun _ => by omega)]
  rw [live_at_offset cells x y (-1) 0 (x - 1) y (x > 0) True hl hy0
      (fun _ => by omega) (fun _ => by omega)]
  rw [live_at_offset cells x y 1 0 (x + 1) y (x < CELLS_WIDTH - 1) True hr hy0
      (fun _ => by omega) (fun _ => by omega)]
  rw [live_at_offset cells x y 0 (-1) x (y - 1) True (y > 0) hx0 hu
      (fun _ => by omega) (fun _ => by omega)]
  rw [live_at_offset cells x y 0 1 x (y + 1) True (y < CELLS_HEIGHT - 1) hx0 hd
      (fun _ => by omega) (fun _ => by omega)]
  simp only [decide_True, Bool.true_and, Bool.and_true]

/-! ## The two passes of `next_game_move` -/

theorem cell_state_eq (c : Cell) : cell_state c = decide (c.state % 2 = 1) := by
  unfold cell_state
  rw [Nat.and_one_is_mod]
  by_cases h : c.state % 2 = 1 <;> simp [h]

theorem live_at_congr (g g0 : Grid)
    (h : ∀ j i, j < CELLS_HEIGHT → i < CELLS_WIDTH →
      cell_state (readCell g j i) = cell_state (readCell g0 j i)) (a b : Int) :
    live_at g a b = live_at g0 a b := by
  unfold live_at
  by_cases hin : in_grid a b = true
  · have hin2 := hin
    simp only [in_grid, Bool.and_eq_true, decide_eq_true_eq] at hin2
    obtain ⟨⟨⟨h1, h2⟩, h3⟩, h4⟩ := hin2
    rw [h b.toNat a.toNat (by omega) (by omega)]
  · have : in_grid a b = false := by simpa using hin
    simp [this]

theorem live_neighbors_congr (g g0 : Grid)
    (h : ∀ j i, j < CELLS_HEIGHT → i < CELLS_WIDTH →
      cell_state (readCell g j i) = cell_state (readCell g0 j i)) (x y : Nat) :
    live_neighbors g x y = live_neighbors g0 x y := by
  unfold live_neighbors
  have : (fun d : Int × Int => live_at g ((x : Int) + d.1) ((y : Int) + d.2))
      = (fun d : Int × Int => live_at g0 ((x : Int) + d.1) ((y : Int) + d.2)) := by
    funext d
    exact live_at_congr g g0 h _ _
  rw [this]

theorem count_neighbors_congr (g g0 : Grid)
    (h : ∀ j i, j < CELLS_HEIGHT → i < CELLS_WIDTH →
      cell_state (readCell g j i) = cell_state (readCell g0 j i)) (x y : Nat)
    (hx : x < CELLS_WIDTH) (hy : y < CELLS_HEIGHT) :
    count_neighbors g x y = count_neighbors g0 x y := by
  rw [count_neighbors_eq_live_neighbors g x y hx hy,
    count_neighbors_eq_live_neighbors g0 x y hx hy]
  exact live_neighbors_congr g g0 h x y

theorem apply_rule_eq_rule (alive : Bool) (n : Nat) : apply_rule alive n = rule_B3S23 alive n := by
  unfold apply_rule rule_B3S23
  cases alive
  · by_cases h : n = 3 <;> simp [h]
  · match n with
    | 0 => rfl
    | 1 => rfl
    | 2 => rfl
    | 3 => rfl
    | n + 4 => simp

theorem cell_state_marked_cell (g0 : Grid) (y x : Nat) :
    cell_state (marked_cell g0 y x) = cell_state (readCell g0 y x) := by
  rw [cell_state_eq, cell_state_eq]
  unfold marked_cell
  simp only []
  split_ifs
  · congr 1
    apply propext
    omega
  · congr 1
    apply propext
    omega

theorem compute_cell_eq (g0 g : Grid) (x y : Nat) (hx : x < CELLS_WIDTH) (hy : y < CELLS_HEIGHT)
    (h : PartialUpdate (marked_cell g0) g0 g y x) :
    compute_cell g x y = writeCell g y x (marked_cell g0 y x) := by
  obtain ⟨_, hcells⟩ := h
  have hsame : readCell g y x = readCell g0 y x := by
    rw [hcells y x hy hx, if_neg (by omega)]
  have hbits : ∀ j i, j < CELLS_HEIGHT → i < CELLS_WIDTH →
      cell_state (readCell g j i) = cell_state (readCell g0 j i) := by
    intro j i hj hi
    rw [hcells j i hj hi]
    split_ifs
    · exact cell_state_marked_cell g0 j i
    · rfl
  unfold compute_cell marked_cell
  simp only []
  rw [count_neighbors_congr g g0 hbits x y hx hy, hsame]

theorem shift_cell_eq (g1 g : Grid) (x y : Nat) (hx : x < CELLS_WIDTH) (hy : y < CELLS_HEIGHT)
    (h : PartialUpdate (shifted_cell g1) g1 g y x) :
    shift_cell g x y = writeCell g y x (shifted_cell g1 y x) := by
  obtain ⟨_, hcells⟩ := h
  have hsame : readCell g y x = readCell g1 y x := by
    rw [hcells y x hy hx, if_neg (by omega)]
  unfold shift_cell shifted_cell
  simp only []
  rw [hsame]

theorem compute_pass_spec (g0 : Grid) (hg : WellFormed g0) :
    WellFormed (compute_pass g0) ∧ ∀ j i, j < CELLS_HEIGHT → i < CELLS_WIDTH →
      readCell (compute_pass g0) j i = marked_cell g0 j i :=
  grid_loop_full compute_cell (marked_cell g0) g0
    (fun g x y hx hy h => compute_cell_eq g0 g x y hx hy h) hg

theorem swap_pass_spec (g1 : Grid) (hg : WellFormed g1) :
    WellFormed (swap_pass g1) ∧ ∀ j i, j < CELLS_HEIGHT → i < CELLS_WIDTH →
      readCell (swap_pass g1) j i = shifted_cell g1 j i :=
  grid_loop_full shift_cell (shifted_cell g1) g1
    (fun g x y hx hy h => shift_cell_eq g1 g x y hx hy h) hg

theorem next_game_move_spec (g0 : Grid) (hg : WellFormed g0) :
    WellFormed (next_game_move g0) ∧ ∀ j i, j < CELLS_HEIGHT → i < CELLS_WIDTH →
      readCell (next_game_move g0) j i =
        { readCell g0 j i with state := (marked_cell g0 j i).state >>> 1 } := by
  obtain ⟨hwf1, h1⟩ := compute_pass_spec g0 hg
  obtain ⟨hwf2, h2⟩ := swap_pass_spec (compute_pass g0) hwf1
  refine ⟨hwf2, ?_⟩
  intro j i hj hi
  unfold next_game_move
  rw [h2 j i hj hi]
  unfold shifted_cell
  rw [h1 j i hj hi]
  rfl

theorem next_game_move_cell (g0 : Grid) (hg : WellFormed g0)
    (hbits : ∀ j i, j < CELLS_HEIGHT → i < CELLS_WIDTH → (readCell g0 j i).state ≤ 1)
    (j i : Nat) (hj : j < CELLS_HEIGHT) (hi : i < CELLS_WIDTH) :
    readCell (next_game_move g0) j i =
      { readCell g0 j i with
        state := if apply_rule (cell_state (readCell g0 j i)) (count_neighbors g0 i j)
                 then 1 else 0 } := by
  rw [(next_game_move_spec g0 hg).2 j i hj hi]
  have hs := hbits j i hj hi
  unfold marked_cell
  simp only []
  congr 1
  rw [Nat.shiftRight_eq_div_pow]
  split_ifs <;> omega

/-! ## Grid equality, the reference implementation, `init_cells`, `toggle_cell` -/

theorem readCell_eq_getElem (g : Grid) (j i : Nat) (hj : j < g.length) (hi : i < (g[j]).length) :
    readCell g j i = (g[j])[i] := by
  simp [readCell, List.getD_eq_getElem?_getD, hj, hi]

theorem grid_ext (g g2 : Grid) (hg : WellFormed g) (hg2 : WellFormed g2)
    (h : ∀ j i, j < CELLS_HEIGHT → i < CELLS_WIDTH → readCell g j i = readCell g2 j i) :
    g = g2 := by
  obtain ⟨hl, hr⟩ := hg
  obtain ⟨hl2, hr2⟩ := hg2
  apply List.ext_getElem (by rw [hl, hl2])
  intro j hj hj2
  have hrow : (g[j]).length = CELLS_WIDTH := hr _ (List.getElem_mem hj)
  have hrow2 : (g2[j]).length = CELLS_WIDTH := hr2 _ (List.getElem_mem hj2)
  apply List.ext_getElem (by rw [hrow, hrow2])
  intro i hi hi2
  have := h j i (by omega) (by omega)
  rw [readCell_eq_getElem g j i hj hi, readCell_eq_getElem g2 j i hj2 hi2] at this
  exact this

theorem wellFormed_two_buffer_next (old : Grid) : WellFormed (two_buffer_next old) := by
  refine ⟨by simp [two_buffer_next], ?_⟩
  intro row hrow
  simp only [two_buffer_next, List.mem_map] at hrow
  obtain ⟨y, _, rfl⟩ := hrow
  simp

theorem readCell_two_buffer_next (old : Grid) (j i : Nat)
    (hj : j < CELLS_HEIGHT) (hi : i < CELLS_WIDTH) :
    readCell (two_buffer_next old) j i =
      { readCell old j i with
        state := if rule_B3S23 (cell_state (readCell old j i)) (live_neighbors old i j)
                 then 1 else 0 } := by
  simp [readCell, two_buffer_next, List.getD_eq_getElem?_getD, hj, hi]

theorem wellFormed_init_cells : WellFormed init_cells := by
  refine ⟨by simp [init_cells], ?_⟩
  intro row hrow
  simp only [init_cells, List.mem_map] at hrow
  obtain ⟨y, _, rfl⟩ := hrow
  simp

theorem readCell_init_cells (j i : Nat) (hj : j < CELLS_HEIGHT) (hi : i < CELLS_WIDTH) :
    readCell init_cells j i =
      { x := (i : Int) * SQUARE_SIZE, y := (j : Int) * SQUARE_SIZE + LAYOUT_TOP, state := 0 } := by
  simp [readCell, init_cells, List.getD_eq_getElem?_getD, hj, hi]

theorem toggle_cell_spec (cells : Grid) (hwf : WellFormed cells) (x y : Nat)
    (hx : x < CELLS_WIDTH) (hy : y < CELLS_HEIGHT) :
    WellFormed (toggle_cell cells x y) ∧ ∀ j i,
      readCell (toggle_cell cells x y) j i =
        if j = y ∧ i = x then
          { readCell cells y x with state := if cell_state (readCell cells y x) then 0 else 1 }
        else readCell cells j i :=
  ⟨wellFormed_writeCell cells y x _ hwf, fun j i => readCell_writeCell cells hwf y x j i _ hy hx⟩

/-! ## The rule and the refinement of the two-buffer reference -/

/-- C3. `apply_rule cell_state n` is true iff the cell is alive and `n` is 2 or
3, or the cell is dead and `n` is 3; so a live cell with 1 or 4 neighbours dies, with 2 or 3
it survives, and a dead cell becomes alive only with exactly 3. The statement is for every
natural `n`, which includes the 8-bit range. -/
theorem apply_rule_B3S23 (cell_state : Bool) (n : Nat) :
    (apply_rule cell_state n = true ↔
      (cell_state = true ∧ (n = 2 ∨ n = 3)) ∨ (cell_state = false ∧ n = 3))
    ∧ apply_rule true 1 = false ∧ apply_rule true 4 = false
    ∧ apply_rule true 2 = true ∧ apply_rule true 3 = true
    ∧ (apply_rule false n = true ↔ n = 3) := by
  refine ⟨?_, rfl, rfl, rfl, rfl, ?_⟩
  · unfold apply_rule
    cases cell_state
    · by_cases h : n = 3 <;> simp [h]
    · match n with
      | 0 => simp
      | 1 => simp
      | 2 => simp
      | 3 => simp
      | n + 4 => simp
  · unfold apply_rule
    by_cases h : n = 3 <;> simp [h]

/-- C1. For every 90x45 grid whose state words are all 0 or 1, the in-place
two-pass `next_game_move` returns exactly the grid computed by the two-buffer reference
`two_buffer_next`, which reads only the old grid; and a cell is alive afterwards exactly when
the rule B3/S23, applied to its liveness and live-neighbour count in the original grid,
yields alive. -/
theorem next_game_move_refines_two_buffer (cells : Grid) (hwf : WellFormed cells)
    (hbits : ∀ y x, y < CELLS_HEIGHT → x < CELLS_WIDTH →
      (readCell cells y x).state = 0 ∨ (readCell cells y x).state = 1) :
    next_game_move cells = two_buffer_next cells ∧
    ∀ y x, y < CELLS_HEIGHT → x < CELLS_WIDTH →
      (cell_state (readCell (next_game_move cells) y x) = true ↔
        rule_B3S23 (cell_state (readCell cells y x)) (live_neighbors cells x y) = true) := by
  have hle : ∀ j i, j < CELLS_HEIGHT → i < CELLS_WIDTH → (readCell cells j i).state ≤ 1 := by
    intro j i hj hi
    rcases hbits j i hj hi with h | h <;> omega
  have hcell : ∀ j i, j < CELLS_HEIGHT → i < CELLS_WIDTH →
      readCell (next_game_move cells) j i = readCell (two_buffer_next cells) j i := by
    intro j i hj hi
    rw [next_game_move_cell cells hwf hle j i hj hi, readCell_two_buffer_next cells j i hj hi,
      apply_rule_eq_rule, count_neighbors_eq_live_neighbors cells i j hi hj]
  refine ⟨grid_ext _ _ (next_game_move_spec cells hwf).1 (wellFormed_two_buffer_next cells) hcell,
    ?_⟩
  intro y x hy hx
  rw [hcell y x hy hx, readCell_two_buffer_next cells y x hy hx, cell_state_eq]
  simp only []
  split_ifs with h
  · simp [h]
  · simp [h]

theorem next_game_move_refines_two_buffer_witness :
    WellFormed (toggle_cell init_cells 3 2)
    ∧ next_game_move (toggle_cell init_cells 3 2) = two_buffer_next (toggle_cell init_cells 3 2) :=
  ⟨(toggle_cell_spec init_cells wellFormed_init_cells 3 2 (by decide) (by decide)).1,
    (next_game_move_refines_two_buffer (toggle_cell init_cells 3 2)
      (toggle_cell_spec init_cells wellFormed_init_cells 3 2 (by decide) (by decide)).1
      (fun y x hy hx => by
        rw [(toggle_cell_spec init_cells wellFormed_init_cells 3 2 (by decide) (by decide)).2]
        by_cases e : y = 2 ∧ x = 3
        · rw [if_pos e]
          simp only []
          split_ifs
          · exact Or.inl rfl
          · exact Or.inr rfl
        · rw [if_neg e, readCell_init_cells y x hy hx]
          exact Or.inl rfl)).1⟩

/-! ## Buttons -/

theorem press_button_event_pressed (b : Button) (m : Mouse) :
    (press_button_event b m).pressed = (!b.show_pressed && mouse_pressed_button b m) := by
  unfold press_button_event
  split_ifs with h1
  · simp [h1]
  · have : (!b.show_pressed && mouse_pressed_button b m) = false := by simpa using h1
    rw [this]
    simp only []
    split_ifs <;> rfl

theorem press_button_event_latches (b : Button) (m : Mouse)
    (h : (press_button_event b m).pressed = true) :
    (press_button_event b m).show_pressed = true := by
  unfold press_button_event at h ⊢
  split_ifs with h1
  · rfl
  · rw [if_neg h1] at h
    simp only [] at h
    split_ifs at h

theorem pressReachable_foldl (start b : Button) (h : PressReachable start b) (ms : List Mouse) :
    PressReachable start (ms.foldl press_button_event b) := by
  induction ms generalizing b with
  | nil => exact h
  | cons m ms ih => exact ih _ (PressReachable.step b m h)

theorem pressReachable_press_frames (start : Button) (ms : List Mouse) :
    PressReachable start (press_frames start ms) :=
  pressReachable_foldl start start PressReachable.init ms

set_option maxRecDepth 100000 in
/-- C4, evaluated where the code departs from the claim. After 31 frames without a click the
clear button is in a reachable state with `show_pressed = false`. A qualifying click then sets `show_pressed`,
and the very next call without a click clears it again: the flash lasts one frame, not 31.
The reason is that `press_button_event` lets `pressed_timer` run while the button is not
latched and does not reset it on the click. Only when the click arrives with the timer at 0,
as in the fresh button, is `show_pressed` true through 31 further calls and false after the
32nd. -/
theorem press_flash_cut_short :
    PressReachable (make_clear_button 1680 20)
      (press_frames (make_clear_button 1680 20) (List.replicate 31 idle_frame))
    ∧ (press_frames (make_clear_button 1680 20) (List.replicate 31 idle_frame)).show_pressed
        = false
    ∧ mouse_pressed_button
        (press_frames (make_clear_button 1680 20) (List.replicate 31 idle_frame)) clear_click
        = true
    ∧ mouse_pressed_button
        (press_frames (make_clear_button 1680 20) (List.replicate 31 idle_frame)) idle_frame
        = false
    ∧ (press_frames (make_clear_button 1680 20)
        (List.replicate 31 idle_frame ++ [clear_click])).show_pressed = true
    ∧ (press_frames (make_clear_button 1680 20)
        (List.replicate 31 idle_frame ++ [clear_click, idle_frame])).show_pressed = false
    ∧ (press_frames (make_clear_button 1680 20)
        (List.replicate 31 idle_frame)).pressed_timer = 31
    ∧ (press_frames (make_clear_button 1680 20)
        (clear_click :: List.replicate 31 idle_frame)).show_pressed = true
    ∧ (press_frames (make_clear_button 1680 20)
        (clear_click :: List.replicate 32 idle_frame)).show_pressed = false :=
  ⟨pressReachable_press_frames _ _, by decide, by decide, by decide, by decide, by decide,
    by decide, by decide, by decide⟩

/-- C5. After `press_button_event`, `pressed` is true iff `show_pressed` was
false before the call and a qualifying click occurred in it. Hence `pressed` is never true
after two consecutive calls, and a click while `show_pressed` is true does not fire. -/
theorem press_button_event_pulse (b : Button) (m m2 : Mouse) :
    ((press_button_event b m).pressed = true ↔
      (b.show_pressed = false ∧ mouse_pressed_button b m = true))
    ∧ ¬ ((press_button_event b m).pressed = true ∧
          (press_button_event (press_button_event b m) m2).pressed = true)
    ∧ ¬ (b.show_pressed = true ∧ (press_button_event b m).pressed = true) := by
  refine ⟨?_, ?_, ?_⟩
  · rw [press_button_event_pressed]
    simp
  · rintro ⟨h1, h2⟩
    have h3 := press_button_event_latches b m h1
    rw [press_button_event_pressed, h3] at h2
    simp at h2
  · rintro ⟨h1, h2⟩
    rw [press_button_event_pressed, h1] at h2
    simp at h2

theorem mouse_pressed_button_toggle (b : Button) (m m2 : Mouse) :
    mouse_pressed_button (toggle_button_event b m) m2 = mouse_pressed_button b m2 := by
  unfold toggle_button_event
  split_ifs <;> rfl

theorem toggle_button_event_pressed (b : Button) (m : Mouse) :
    (toggle_button_event b m).pressed = xor b.pressed (mouse_pressed_button b m) := by
  unfold toggle_button_event
  split_ifs with h
  · simp [h]
  · simp [h]

theorem toggle_frames_pressed (b : Button) (ms : List Mouse) :
    ((toggle_frames b ms).pressed = xor b.pressed
        (decide (Odd ((ms.filter (mouse_pressed_button b)).length)))) ∧
      ∀ m, mouse_pressed_button (toggle_frames b ms) m = mouse_pressed_button b m := by
  unfold toggle_frames
  induction ms generalizing b with
  | nil => simp
  | cons m ms ih =>
    obtain ⟨ih1, ih2⟩ := ih (toggle_button_event b m)
    refine ⟨?_, ?_⟩
    · rw [List.foldl_cons, ih1, toggle_button_event_pressed]
      have hf : List.filter (mouse_pressed_button (toggle_button_event b m)) ms
          = List.filter (mouse_pressed_button b) ms := by
        congr 1
        funext m2
        exact mouse_pressed_button_toggle b m m2
      rw [hf]
      cases hm : mouse_pressed_button b m
      · simp [List.filter, hm]
      · have hodd : decide (Odd ((List.filter (mouse_pressed_button b) ms).length + 1))
            = !decide (Odd (List.filter (mouse_pressed_button b) ms).length) := by
          by_cases ho : Odd (List.filter (mouse_pressed_button b) ms).length
          · have : ¬ Odd ((List.filter (mouse_pressed_button b) ms).length + 1) := by
              rw [Nat.odd_add_one]; exact fun hn => hn ho
            simp [ho, this]
          · have : Odd ((List.filter (mouse_pressed_button b) ms).length + 1) := by
              rw [Nat.odd_add_one]; exact ho
            simp [ho, this]
        simp only [List.filter, hm, List.length_cons, hodd]
        cases b.pressed <;>
          cases decide (Odd (List.filter (mouse_pressed_button b) ms).length) <;> rfl
    · intro m2
      rw [List.foldl_cons, ih2, mouse_pressed_button_toggle]

/-- C6. Starting from the initial play button, `pressed` after any sequence of
frames is true iff the number of qualifying clicks in the sequence is odd; a call without a
click leaves the button unchanged, a call with a click inverts `pressed`; three clicks give
the states on, off, on. -/
theorem toggle_button_parity (x y : Int) (ms : List Mouse) :
    ((toggle_frames (make_play_button x y) ms).pressed = true ↔
      Odd ((ms.filter (mouse_pressed_button (make_play_button x y))).length))
    ∧ (∀ (b : Button) (m : Mouse), mouse_pressed_button b m = false →
        toggle_button_event b m = b)
    ∧ (∀ (b : Button) (m : Mouse), mouse_pressed_button b m = true →
        (toggle_button_event b m).pressed = !b.pressed)
    ∧ (∀ m1 m2 m3 : Mouse,
        mouse_pressed_button (make_play_button x y) m1 = true →
        mouse_pressed_button (make_play_button x y) m2 = true →
        mouse_pressed_button (make_play_button x y) m3 = true →
        (toggle_frames (make_play_button x y) [m1]).pressed = true
        ∧ (toggle_frames (make_play_button x y) [m1, m2]).pressed = false
        ∧ (toggle_frames (make_play_button x y) [m1, m2, m3]).pressed = true) := by
  have hpar : ∀ l : List Mouse, (toggle_frames (make_play_button x y) l).pressed
      = decide (Odd ((l.filter (mouse_pressed_button (make_play_button x y))).length)) := by
    intro l
    rw [(toggle_frames_pressed _ l).1]
    simp [make_play_button, init_button]
  refine ⟨?_, ?_, ?_, ?_⟩
  · rw [hpar]; simp
  · intro b m h
    unfold toggle_button_event
    rw [if_neg (by simp [h])]
  · intro b m h
    rw [toggle_button_event_pressed, h]
    simp
  · intro m1 m2 m3 h1 h2 h3
    refine ⟨?_, ?_, ?_⟩
    · rw [hpar]; simp [List.filter, h1]
    · rw [hpar]; simp [List.filter, h1, h2]
    · rw [hpar]; simp [List.filter, h1, h2, h3]
      decide

theorem toggle_button_parity_witness :
    (toggle_frames (make_play_button 20 20) [play_click]).pressed = true
    ∧ (toggle_frames (make_play_button 20 20) [play_click, play_click]).pressed = false
    ∧ (toggle_frames (make_play_button 20 20) [play_click, play_click, play_click]).pressed
        = true
    ∧ toggle_button_event (make_play_button 20 20) idle_frame = make_play_button 20 20 :=
  ⟨((toggle_button_parity 20 20 []).2.2.2 play_click play_click play_click
      (by decide) (by decide) (by decide)).1,
   ((toggle_button_parity 20 20 []).2.2.2 play_click play_click play_click
      (by decide) (by decide) (by decide)).2.1,
   ((toggle_button_parity 20 20 []).2.2.2 play_click play_click play_click
      (by decide) (by decide) (by decide)).2.2,
   (toggle_button_parity 20 20 []).2.1 _ _ (by decide)⟩

/-! ## Input mapping -/

set_option maxRecDepth 100000 in
/-- Known values of binary64 arithmetic, reproduced by `f64_round`: `1 / 3` is
`6004799503160661 / 2^54` and `1 / 10` is `3602879701896397 / 2^55`; the integer `2^53 + 1`
lies half way between two values and rounds to the even one, `2^53`, and `2^53 + 3` rounds
to `2^53 + 4`; integers below `2^53` convert exactly. -/
theorem f64_round_known_values :
    (f64_div (f64_of_int 1) (f64_of_int 3)).num * 18014398509481984
      = 6004799503160661 * (f64_div (f64_of_int 1) (f64_of_int 3)).den
    ∧ (f64_div (f64_of_int 1) (f64_of_int 10)).num * 36028797018963968
      = 3602879701896397 * (f64_div (f64_of_int 1) (f64_of_int 10)).den
    ∧ f64_floor (f64_of_int 9007199254740993) = 9007199254740992
    ∧ f64_floor (f64_of_int 9007199254740995) = 9007199254740996
    ∧ f64_floor (f64_of_int (-2147483648)) = -2147483648
    ∧ f64_floor (f64_sub (f64_of_int 560) (f64_of_int 100)) = 460 :=
  ⟨by decide, by decide, by decide, by decide, by decide, by decide⟩

set_option maxRecDepth 100000 in
/-- C10, evaluated where the code departs from the claim. At the pointer position
`(460, 560)` the program computes column 22 and row 22: `460 / 1800` rounds to a value whose
product with 1800 rounds below 460, so the last division gives a value below 23.
The claim gives `floor (460 / 1800 * 90) = floor (460 / 20) = 23` and
`floor ((560 - 100) / 20) = 23`, which is also the cell that `init_cells` places at the pixel
position `(460, 560)`. The same happens at the pixel columns 920 and 980. The positions
named in the claim are as the claim says: columns 0 and 19 map to 0, 20 to 1, 1780 and 1799
to 89, 1800 to 90; rows 100 and 119 map to 0, 980 and 999 to 44, 1000 to 45, and row 99 to
-1. -/
theorem mouse_coords_one_cell_low :
    mouse_coords { mouse_x := 460, mouse_y := 560, left_pressed := true } = (22, 22)
    ∧ (f64_mul (f64_div (f64_of_int 460) (f64_of_int 1800)) (f64_of_int 1800)).num
        < 460 * (f64_mul (f64_div (f64_of_int 460) (f64_of_int 1800)) (f64_of_int 1800)).den
    ∧ Int.floor ((460 : ℚ) / 1800 * 90) = 23
    ∧ Int.floor ((460 : ℚ) / 20) = 23
    ∧ Int.floor (((560 : ℚ) - 100) / 900 * 45) = 23
    ∧ Int.floor (((560 : ℚ) - 100) / 20) = 23
    ∧ (readCell init_cells 23 23).x = 460 ∧ (readCell init_cells 23 23).y = 560
    ∧ valid_cell_coords
        (mouse_coords { mouse_x := 460, mouse_y := 560, left_pressed := true }) = true
    ∧ mouse_coords { mouse_x := 920, mouse_y := 560, left_pressed := true } = (45, 22)
    ∧ mouse_coords { mouse_x := 980, mouse_y := 560, left_pressed := true } = (48, 22)
    ∧ mouse_coords { mouse_x := 0, mouse_y := 100, left_pressed := true } = (0, 0)
    ∧ mouse_coords { mouse_x := 19, mouse_y := 119, left_pressed := true } = (0, 0)
    ∧ mouse_coords { mouse_x := 20, mouse_y := 120, left_pressed := true } = (1, 1)
    ∧ mouse_coords { mouse_x := 1780, mouse_y := 980, left_pressed := true } = (89, 44)
    ∧ mouse_coords { mouse_x := 1799, mouse_y := 999, left_pressed := true } = (89, 44)
    ∧ mouse_coords { mouse_x := 1800, mouse_y := 1000, left_pressed := true } = (90, 45)
    ∧ mouse_coords { mouse_x := -1, mouse_y := 99, left_pressed := true } = (-1, -1) := by
  refine ⟨by decide, by decide, ?_, ?_, ?_, ?_, ?_, ?_, by decide, by decide, by decide, by decide,
    by decide, by decide, by decide, by decide, by decide, by decide⟩
  · rw [Int.floor_eq_iff]; norm_num
  · rw [Int.floor_eq_iff]; norm_num
  · rw [Int.floor_eq_iff]; norm_num
  · rw [Int.floor_eq_iff]; norm_num
  · rw [readCell_init_cells 23 23 (by decide) (by decide)]
    simp [SQUARE_SIZE]
  · rw [readCell_init_cells 23 23 (by decide) (by decide)]
    simp [SQUARE_SIZE, LAYOUT_TOP]

/-- C9. `valid_cell_coords` holds iff 0 ≤ c0 < 90 and 0 ≤ c1 < 45, and
`toggle_cell_event` holds iff the coordinates are valid and the left button was pressed this
frame; a column or row index of -1, a column index of 90 and a row index of 45 are rejected,
so a toggle never fires with coordinates that do not index a cell. The statement is for all
integers, which include every 64-bit signed value. -/
theorem valid_cell_coords_iff (c0 c1 : Int) (m : Mouse) :
    (valid_cell_coords (c0, c1) = true ↔ 0 ≤ c0 ∧ c0 < 90 ∧ 0 ≤ c1 ∧ c1 < 45)
    ∧ (toggle_cell_event (c0, c1) m = true ↔
        valid_cell_coords (c0, c1) = true ∧ m.left_pressed = true)
    ∧ toggle_cell_event (-1, c1) m = false
    ∧ toggle_cell_event (c0, -1) m = false
    ∧ toggle_cell_event (90, c1) m = false
    ∧ toggle_cell_event (c0, 45) m = false
    ∧ ¬ (toggle_cell_event (c0, c1) m = true ∧
          ¬ (c0.toNat < CELLS_WIDTH ∧ c1.toNat < CELLS_HEIGHT ∧ 0 ≤ c0 ∧ 0 ≤ c1)) := by
  have hv : ∀ a b : Int, valid_cell_coords (a, b) = true ↔ 0 ≤ a ∧ a < 90 ∧ 0 ≤ b ∧ b < 45 := by
    intro a b
    unfold valid_cell_coords
    simp only [CELLS_WIDTH, CELLS_HEIGHT, SCREEN_WIDTH, SCREEN_HEIGHT, LAYOUT_TOP, SQUARE_SIZE,
      Bool.and_eq_true, decide_eq_true_eq]
    norm_num
    omega
  have ht : ∀ a b : Int, ¬ (0 ≤ a ∧ a < 90 ∧ 0 ≤ b ∧ b < 45) →
      toggle_cell_event (a, b) m = false := by
    intro a b h
    unfold toggle_cell_event
    have : valid_cell_coords (a, b) = false := by
      rw [← Bool.not_eq_true, hv]; exact h
    rw [this]; rfl
  refine ⟨hv c0 c1, ?_, ht _ _ (by omega), ht _ _ (by omega), ht _ _ (by omega),
    ht _ _ (by omega), ?_⟩
  · unfold toggle_cell_event
    simp
  · rintro ⟨h1, h2⟩
    unfold toggle_cell_event at h1
    simp only [Bool.and_eq_true] at h1
    have := (hv c0 c1).mp h1.1
    apply h2
    simp only [CELLS_WIDTH, CELLS_HEIGHT, SCREEN_WIDTH, SCREEN_HEIGHT, LAYOUT_TOP, SQUARE_SIZE]
    norm_num
    omega

/-! ## Properties of the neighbour count -/

theorem toNat_le_one (b : Bool) : b.toNat ≤ 1 := by cases b <;> simp

theorem count_neighbors_le_eight (cells : Grid) (x y : Nat) : count_neighbors cells x y ≤ 8 := by
  rw [count_neighbors_sum]
  have h1 := toNat_le_one (decide (x > 0) && decide (y > 0) && cell_state (readCell cells (y - 1) (x - 1)))
  have h2 := toNat_le_one (decide (x < CELLS_WIDTH - 1) && decide (y > 0) && cell_state (readCell cells (y - 1) (x + 1)))
  have h3 := toNat_le_one (decide (x > 0) && decide (y < CELLS_HEIGHT - 1) && cell_state (readCell cells (y + 1) (x - 1)))
  have h4 := toNat_le_one (decide (x < CELLS_WIDTH - 1) && decide (y < CELLS_HEIGHT - 1) && cell_state (readCell cells (y + 1) (x + 1)))
  have h5 := toNat_le_one (decide (x > 0) && cell_state (readCell cells y (x - 1)))
  have h6 := toNat_le_one (decide (x < CELLS_WIDTH - 1) && cell_state (readCell cells y (x + 1)))
  have h7 := toNat_le_one (decide (y > 0) && cell_state (readCell cells (y - 1) x))
  have h8 := toNat_le_one (decide (y < CELLS_HEIGHT - 1) && cell_state (readCell cells (y + 1) x))
  omega

theorem count_neighbors_corner (cells : Grid) :
    count_neighbors cells 0 0 = (cell_state (readCell cells 0 1)).toNat
      + (cell_state (readCell cells 1 0)).toNat + (cell_state (readCell cells 1 1)).toNat := by
  rw [count_neighbors_sum]
  simp [CELLS_WIDTH_eq, CELLS_HEIGHT_eq]
  omega

theorem live_at_writeCell_other (cells : Grid) (x y : Nat) (c : Cell) (a b : Int)
    (h : a ≠ (x : Int) ∨ b ≠ (y : Int)) :
    live_at (writeCell cells y x c) a b = live_at cells a b := by
  unfold live_at
  by_cases hin : in_grid a b = true
  · have hin2 := hin
    simp only [in_grid, Bool.and_eq_true, decide_eq_true_eq] at hin2
    obtain ⟨⟨⟨h1, h2⟩, h3⟩, h4⟩ := hin2
    rw [readCell_writeCell_other cells y x b.toNat a.toNat c (by omega)]
  · have : in_grid a b = false := by simpa using hin
    simp [this]

theorem live_neighbors_writeCell_self (cells : Grid) (x y : Nat) (c : Cell) :
    live_neighbors (writeCell cells y x c) x y = live_neighbors cells x y := by
  rw [live_neighbors_sum, live_neighbors_sum]
  rw [live_at_writeCell_other cells x y c _ _ (by omega),
    live_at_writeCell_other cells x y c _ _ (by omega),
    live_at_writeCell_other cells x y c _ _ (by omega),
    live_at_writeCell_other cells x y c _ _ (by omega),
    live_at_writeCell_other cells x y c _ _ (by omega),
    live_at_writeCell_other cells x y c _ _ (by omega),
    live_at_writeCell_other cells x y c _ _ (by omega),
    live_at_writeCell_other cells x y c _ _ (by omega)]

/-- C2. For x < 90 and y < 45, `count_neighbors cells x y` is the number of the
eight non-zero offsets whose position lies inside the grid and holds a cell with bit 0 set
(`live_neighbors`: clipped boundary, no wrap-around); the cell at `(x, y)` itself has no
influence on the count; the count at `(0, 0)` is the number of live cells among `(1, 0)`,
`(0, 1)`, `(1, 1)` and is at most 3; the count is at most 8 everywhere. -/
theorem count_neighbors_clipped_moore (cells : Grid) (x y : Nat)
    (hx : x < CELLS_WIDTH) (hy : y < CELLS_HEIGHT) :
    count_neighbors cells x y = live_neighbors cells x y
    ∧ (∀ c : Cell, count_neighbors (writeCell cells y x c) x y = count_neighbors cells x y)
    ∧ count_neighbors cells 0 0 = (cell_state (readCell cells 0 1)).toNat
        + (cell_state (readCell cells 1 0)).toNat + (cell_state (readCell cells 1 1)).toNat
    ∧ count_neighbors cells 0 0 ≤ 3
    ∧ (∀ a b : Nat, count_neighbors cells a b ≤ 8) := by
  refine ⟨count_neighbors_eq_live_neighbors cells x y hx hy, ?_, count_neighbors_corner cells, ?_,
    count_neighbors_le_eight cells⟩
  · intro c
    rw [count_neighbors_eq_live_neighbors _ x y hx hy,
      count_neighbors_eq_live_neighbors _ x y hx hy]
    exact live_neighbors_writeCell_self cells x y c
  · rw [count_neighbors_corner]
    have h1 := toNat_le_one (cell_state (readCell cells 0 1))
    have h2 := toNat_le_one (cell_state (readCell cells 1 0))
    have h3 := toNat_le_one (cell_state (readCell cells 1 1))
    omega

theorem count_neighbors_clipped_moore_witness :
    count_neighbors init_cells 0 0 = live_neighbors init_cells 0 0
    ∧ count_neighbors init_cells 89 44 = live_neighbors init_cells 89 44 :=
  ⟨(count_neighbors_clipped_moore init_cells 0 0 (by decide) (by decide)).1,
   (count_neighbors_clipped_moore init_cells 89 44 (by decide) (by decide)).1⟩

/-! ## The all-dead grid -/

theorem live_at_of_dead (cells : Grid)
    (hdead : ∀ y x, y < CELLS_HEIGHT → x < CELLS_WIDTH → (readCell cells y x).state = 0)
    (a b : Int) : live_at cells a b = false := by
  unfold live_at
  by_cases hin : in_grid a b = true
  · have hin2 := hin
    simp only [in_grid, Bool.and_eq_true, decide_eq_true_eq] at hin2
    obtain ⟨⟨⟨h1, h2⟩, h3⟩, h4⟩ := hin2
    rw [cell_state_eq, hdead b.toNat a.toNat (by omega) (by omega)]
    simp
  · have : in_grid a b = false := by simpa using hin
    simp [this]

/-- C7. If every cell of a 90x45 grid has state word 0, then after
`next_game_move` every cell still has state word 0, and the grid as a whole is unchanged. -/
theorem all_dead_fixed_point (cells : Grid) (hwf : WellFormed cells)
    (hdead : ∀ y x, y < CELLS_HEIGHT → x < CELLS_WIDTH → (readCell cells y x).state = 0) :
    (∀ y x, y < CELLS_HEIGHT → x < CELLS_WIDTH →
      (readCell (next_game_move cells) y x).state = 0)
    ∧ next_game_move cells = cells := by
  have hcell : ∀ j i, j < CELLS_HEIGHT → i < CELLS_WIDTH →
      readCell (next_game_move cells) j i = readCell cells j i := by
    intro j i hj hi
    rw [next_game_move_cell cells hwf (fun j i hj hi => by rw [hdead j i hj hi]; omega) j i hj hi,
      count_neighbors_eq_live_neighbors cells i j hi hj, live_neighbors_sum]
    simp only [live_at_of_dead cells hdead, cell_state_eq, hdead j i hj hi]
    have : apply_rule (decide (0 % 2 = 1)) (false.toNat + false.toNat + false.toNat
        + false.toNat + false.toNat + false.toNat + false.toNat + false.toNat) = false := by
      decide
    rw [this]
    have hs := hdead j i hj hi
    cases hc : readCell cells j i
    rw [hc] at hs
    simp only [] at hs
    simp [hs]
  refine ⟨?_, grid_ext _ _ (next_game_move_spec cells hwf).1 hwf hcell⟩
  intro y x hy hx
  rw [hcell y x hy hx]
  exact hdead y x hy hx

theorem all_dead_fixed_point_witness :
    WellFormed init_cells ∧ next_game_move init_cells = init_cells :=
  ⟨wellFormed_init_cells,
   (all_dead_fixed_point init_cells wellFormed_init_cells
      (fun y x hy hx => by rw [readCell_init_cells y x hy hx])).2⟩

/-! ## The blinker -/

theorem row_shape_far (u v : Int) (h : u ≤ -2 ∨ 2 ≤ u ∨ v ≤ -1 ∨ 1 ≤ v) :
    row_shape u v = false := by
  unfold row_shape
  exact decide_eq_false (by omega)

theorem col_shape_far (u v : Int) (h : u ≤ -1 ∨ 1 ≤ u ∨ v ≤ -2 ∨ 2 ≤ v) :
    col_shape u v = false := by
  unfold col_shape
  exact decide_eq_false (by omega)

theorem row_rule (u v : Int) :
    rule_B3S23 (row_shape u v) (window_count row_shape u v) = col_shape u v := by
  by_cases h : u ≤ -3 ∨ 3 ≤ u ∨ v ≤ -2 ∨ 2 ≤ v
  · unfold window_count
    rw [row_shape_far u v (by omega),
      row_shape_far (u + -1) (v + -1) (by omega),
      row_shape_far (u + 1) (v + -1) (by omega),
      row_shape_far (u + -1) (v + 1) (by omega),
      row_shape_far (u + 1) (v + 1) (by omega),
      row_shape_far (u + -1) (v + 0) (by omega),
      row_shape_far (u + 1) (v + 0) (by omega),
      row_shape_far (u + 0) (v + -1) (by omega),
      row_shape_far (u + 0) (v + 1) (by omega)]
    by_cases h2 : u ≤ -1 ∨ 1 ≤ u ∨ v ≤ -2 ∨ 2 ≤ v
    · rw [col_shape_far u v h2]; rfl
    · omega
  · have hu1 : -2 ≤ u := by omega
    have hu2 : u ≤ 2 := by omega
    have hv1 : -1 ≤ v := by omega
    have hv2 : v ≤ 1 := by omega
    interval_cases u <;> interval_cases v <;> decide

theorem col_rule (u v : Int) :
    rule_B3S23 (col_shape u v) (window_count col_shape u v) = row_shape u v := by
  by_cases h : u ≤ -2 ∨ 2 ≤ u ∨ v ≤ -3 ∨ 3 ≤ v
  · unfold window_count
    rw [col_shape_far u v (by omega),
      col_shape_far (u + -1) (v + -1) (by omega),
      col_shape_far (u + 1) (v + -1) (by omega),
      col_shape_far (u + -1) (v + 1) (by omega),
      col_shape_far (u + 1) (v + 1) (by omega),
      col_shape_far (u + -1) (v + 0) (by omega),
      col_shape_far (u + 1) (v + 0) (by omega),
      col_shape_far (u + 0) (v + -1) (by omega),
      col_shape_far (u + 0) (v + 1) (by omega)]
    by_cases h2 : u ≤ -2 ∨ 2 ≤ u ∨ v ≤ -1 ∨ 1 ≤ v
    · rw [row_shape_far u v h2]; rfl
    · omega
  · have hu1 : -1 ≤ u := by omega
    have hu2 : u ≤ 1 := by omega
    have hv1 : -2 ≤ v := by omega
    have hv2 : v ≤ 2 := by omega
    interval_cases u <;> interval_cases v <;> decide

theorem live_neighbors_window (cells : Grid) (x y : Nat) :
    live_neighbors cells x y = window_count (live_at cells) x y :=
  live_neighbors_sum cells x y

theorem live_at_of_pattern (cells : Grid) (alive : Nat → Nat → Bool)
    (h : HasPattern cells alive) (a b : Int) :
    live_at cells a b = (in_grid a b && alive b.toNat a.toNat) := by
  unfold live_at
  by_cases hin : in_grid a b = true
  · have hin2 := hin
    simp only [in_grid, Bool.and_eq_true, decide_eq_true_eq] at hin2
    obtain ⟨⟨⟨h1, h2⟩, h3⟩, h4⟩ := hin2
    rw [cell_state_eq, h b.toNat a.toNat (by omega) (by omega)]
    cases alive b.toNat a.toNat <;> simp
  · have : in_grid a b = false := by simpa using hin
    simp [this]

theorem next_game_move_pattern (cells : Grid) (hwf : WellFormed cells)
    (alive : Nat → Nat → Bool) (h : HasPattern cells alive) :
    ∀ j i, j < CELLS_HEIGHT → i < CELLS_WIDTH →
      readCell (next_game_move cells) j i =
        { readCell cells j i with
          state := if rule_B3S23 (alive j i) (live_neighbors cells i j) then 1 else 0 } := by
  intro j i hj hi
  rw [next_game_move_cell cells hwf (fun j i hj hi => by rw [h j i hj hi]; split_ifs <;> omega)
    j i hj hi, apply_rule_eq_rule, count_neighbors_eq_live_neighbors cells i j hi hj,
    cell_state_eq, h j i hj hi]
  cases alive j i <;> simp

theorem live_at_blinker_row (cells : Grid) (x y : Nat) (hx1 : 1 ≤ x) (hx2 : x ≤ 88)
    (hy2 : y ≤ 43) (h : HasPattern cells (blinker_row x y)) (a b : Int) :
    live_at cells a b = row_shape (a - x) (b - y) := by
  rw [live_at_of_pattern cells _ h]
  unfold row_shape
  by_cases hc : (b - (y : Int) = 0 ∧ -1 ≤ a - (x : Int) ∧ a - (x : Int) ≤ 1)
  · have h1 : in_grid a b = true := by
      simp only [in_grid, Bool.and_eq_true, decide_eq_true_eq, CELLS_WIDTH_eq, CELLS_HEIGHT_eq]
      omega
    have h2 : blinker_row x y b.toNat a.toNat = true := by
      simp only [blinker_row, decide_eq_true_eq]
      omega
    rw [h1, h2, decide_eq_true hc]; rfl
  · rw [decide_eq_false hc]
    by_cases hin : in_grid a b = true
    · have hin2 := hin
      simp only [in_grid, Bool.and_eq_true, decide_eq_true_eq] at hin2
      have h2 : blinker_row x y b.toNat a.toNat = false := by
        simp only [blinker_row, decide_eq_false_iff_not]
        omega
      rw [h2]; simp
    · have : in_grid a b = false := by simpa using hin
      simp [this]

theorem live_at_blinker_col (cells : Grid) (x y : Nat) (hx2 : x ≤ 88)
    (hy1 : 1 ≤ y) (hy2 : y ≤ 43) (h : HasPattern cells (blinker_col x y)) (a b : Int) :
    live_at cells a b = col_shape (a - x) (b - y) := by
  rw [live_at_of_pattern cells _ h]
  unfold col_shape
  by_cases hc : (a - (x : Int) = 0 ∧ -1 ≤ b - (y : Int) ∧ b - (y : Int) ≤ 1)
  · have h1 : in_grid a b = true := by
      simp only [in_grid, Bool.and_eq_true, decide_eq_true_eq, CELLS_WIDTH_eq, CELLS_HEIGHT_eq]
      omega
    have h2 : blinker_col x y b.toNat a.toNat = true := by
      simp only [blinker_col, decide_eq_true_eq]
      omega
    rw [h1, h2, decide_eq_true hc]; rfl
  · rw [decide_eq_false hc]
    by_cases hin : in_grid a b = true
    · have hin2 := hin
      simp only [in_grid, Bool.and_eq_true, decide_eq_true_eq] at hin2
      have h2 : blinker_col x y b.toNat a.toNat = false := by
        simp only [blinker_col, decide_eq_false_iff_not]
        omega
      rw [h2]; simp
    · have : in_grid a b = false := by simpa using hin
      simp [this]

theorem window_count_shift (p q : Int → Int → Bool) (a b u v : Int)
    (h : ∀ dx dy : Int, p (a + dx) (b + dy) = q (u + dx) (v + dy)) :
    window_count p a b = window_count q u v := by
  unfold window_count
  simp only [h]

theorem blinker_row_step (cells : Grid) (x y : Nat) (hx1 : 1 ≤ x) (hx2 : x ≤ 88)
    (hy2 : y ≤ 43) (h : HasPattern cells (blinker_row x y)) (j i : Nat) :
    rule_B3S23 (blinker_row x y j i) (live_neighbors cells i j) = blinker_col x y j i := by
  have hw : live_neighbors cells i j = window_count row_shape ((i : Int) - x) ((j : Int) - y) := by
    rw [live_neighbors_window]
    apply window_count_shift
    intro dx dy
    rw [live_at_blinker_row cells x y hx1 hx2 hy2 h]
    congr 1 <;> ring
  have e1 : blinker_row x y j i = row_shape ((i : Int) - x) ((j : Int) - y) := by
    unfold blinker_row row_shape
    congr 1
    apply propext
    omega
  have e2 : blinker_col x y j i = col_shape ((i : Int) - x) ((j : Int) - y) := by
    unfold blinker_col col_shape
    congr 1
    apply propext
    omega
  rw [hw, e1, e2]
  exact row_rule _ _

theorem blinker_col_step (cells : Grid) (x y : Nat) (hx2 : x ≤ 88)
    (hy1 : 1 ≤ y) (hy2 : y ≤ 43) (h : HasPattern cells (blinker_col x y)) (j i : Nat) :
    rule_B3S23 (blinker_col x y j i) (live_neighbors cells i j) = blinker_row x y j i := by
  have hw : live_neighbors cells i j = window_count col_shape ((i : Int) - x) ((j : Int) - y) := by
    rw [live_neighbors_window]
    apply window_count_shift
    intro dx dy
    rw [live_at_blinker_col cells x y hx2 hy1 hy2 h]
    congr 1 <;> ring
  have e1 : blinker_row x y j i = row_shape ((i : Int) - x) ((j : Int) - y) := by
    unfold blinker_row row_shape
    congr 1
    apply propext
    omega
  have e2 : blinker_col x y j i = col_shape ((i : Int) - x) ((j : Int) - y) := by
    unfold blinker_col col_shape
    congr 1
    apply propext
    omega
  rw [hw, e1, e2]
  exact col_rule _ _

/-- C8. For 1 ≤ x ≤ 88 and 1 ≤ y ≤ 43, a 90x45 grid whose only live cells are
the horizontal blinker `(x-1, y)`, `(x, y)`, `(x+1, y)` is turned by one `next_game_move` into
a grid whose only live cells are `(x, y-1)`, `(x, y)`, `(x, y+1)`, by two calls back into the
original grid, and one call does not give the original grid back. -/
theorem blinker_period_two (x y : Nat) (hx1 : 1 ≤ x) (hx2 : x ≤ 88) (hy1 : 1 ≤ y) (hy2 : y ≤ 43)
    (cells : Grid) (hwf : WellFormed cells) (h : HasPattern cells (blinker_row x y)) :
    HasPattern (next_game_move cells) (blinker_col x y)
    ∧ next_game_move (next_game_move cells) = cells
    ∧ next_game_move cells ≠ cells := by
  have hwf1 := (next_game_move_spec cells hwf).1
  have hp1 : HasPattern (next_game_move cells) (blinker_col x y) := by
    intro j i hj hi
    rw [next_game_move_pattern cells hwf _ h j i hj hi,
      blinker_row_step cells x y hx1 hx2 hy2 h j i]
  have hwf2 := (next_game_move_spec _ hwf1).1
  refine ⟨hp1, ?_, ?_⟩
  · apply grid_ext _ _ hwf2 hwf
    intro j i hj hi
    rw [next_game_move_pattern _ hwf1 _ hp1 j i hj hi,
      blinker_col_step _ x y hx2 hy1 hy2 hp1 j i,
      next_game_move_pattern cells hwf _ h j i hj hi]
    have hs := h j i hj hi
    cases hc : readCell cells j i
    rw [hc] at hs
    simp only [] at hs
    simp [hs]
  · intro heq
    have a1 := hp1 y (x + 1) (by rw [CELLS_HEIGHT_eq]; omega) (by rw [CELLS_WIDTH_eq]; omega)
    have a2 := h y (x + 1) (by rw [CELLS_HEIGHT_eq]; omega) (by rw [CELLS_WIDTH_eq]; omega)
    rw [heq, a2] at a1
    simp [blinker_row, blinker_col] at a1

theorem blinker_period_two_witness :
    HasPattern (toggle_cell (toggle_cell (toggle_cell init_cells 0 1) 1 1) 2 1) (blinker_row 1 1)
    ∧ HasPattern
        (next_game_move (toggle_cell (toggle_cell (toggle_cell init_cells 0 1) 1 1) 2 1))
        (blinker_col 1 1) := by
  have w1 := toggle_cell_spec init_cells wellFormed_init_cells 0 1 (by decide) (by decide)
  have w2 := toggle_cell_spec _ w1.1 1 1 (by decide) (by decide)
  have w3 := toggle_cell_spec _ w2.1 2 1 (by decide) (by decide)
  have hp : HasPattern (toggle_cell (toggle_cell (toggle_cell init_cells 0 1) 1 1) 2 1)
      (blinker_row 1 1) := by
    intro j i hj hi
    rw [w3.2, w2.2, w2.2, w1.2, w1.2, w1.2]
    simp only [blinker_row, cell_state_eq]
    rw [readCell_init_cells 1 0 (by decide) (by decide),
      readCell_init_cells 1 1 (by decide) (by decide),
      readCell_init_cells 1 2 (by decide) (by decide),
      readCell_init_cells j i hj hi]
    by_cases e1 : j = 1 ∧ i = 2
    · obtain ⟨rfl, rfl⟩ := e1; simp
    · by_cases e2 : j = 1 ∧ i = 1
      · obtain ⟨rfl, rfl⟩ := e2; simp
      · by_cases e3 : j = 1 ∧ i = 0
        · obtain ⟨rfl, rfl⟩ := e3; simp
        · have e4 : ¬ (j = 1 ∧ (i = 0 ∨ i = 1 ∨ i = 2)) := by omega
          simp [e1, e2, e3, e4]
  exact ⟨hp, (blinker_period_two 1 1 (by decide) (by decide) (by decide) (by decide) _ w3.1 hp).1⟩

/-! ## Toggling a cell, `init_cells`, reachable grids, the frame of `main` -/

theorem toggle_state_twice (c : Cell) (h : c.state = 0 ∨ c.state = 1) :
    ({ ({ c with state := if cell_state c then 0 else 1 } : Cell) with
        state := if cell_state ({ c with state := if cell_state c then 0 else 1 } : Cell)
                 then 0 else 1 } : Cell) = c := by
  obtain ⟨cx, cy, cs⟩ := c
  simp only [] at h
  rcases h with rfl | rfl <;> simp [cell_state_eq]

/-- C11. For a 90x45 grid and in-range `(x, y)`, `toggle_cell` sets the state word at column
`x`, row `y` to 0 if bit 0 was set and to 1 otherwise, which negates `cell_state`; every other
cell and the stored position of every cell are unchanged, and the grid keeps its shape;
applied twice to a grid whose state words are 0 or 1 it gives the original grid back. -/
theorem toggle_cell_flips (cells : Grid) (hwf : WellFormed cells) (x y : Nat)
    (hx : x < CELLS_WIDTH) (hy : y < CELLS_HEIGHT) :
    (readCell (toggle_cell cells x y) y x).state
        = (if cell_state (readCell cells y x) then 0 else 1)
    ∧ cell_state (readCell (toggle_cell cells x y) y x) = !cell_state (readCell cells y x)
    ∧ (∀ j i, ¬ (j = y ∧ i = x) →
        readCell (toggle_cell cells x y) j i = readCell cells j i)
    ∧ (∀ j i, (readCell (toggle_cell cells x y) j i).x = (readCell cells j i).x
        ∧ (readCell (toggle_cell cells x y) j i).y = (readCell cells j i).y)
    ∧ WellFormed (toggle_cell cells x y)
    ∧ ((∀ j i, j < CELLS_HEIGHT → i < CELLS_WIDTH →
          (readCell cells j i).state = 0 ∨ (readCell cells j i).state = 1) →
        toggle_cell (toggle_cell cells x y) x y = cells) := by
  obtain ⟨hwf1, h1⟩ := toggle_cell_spec cells hwf x y hx hy
  obtain ⟨hwf2, h2⟩ := toggle_cell_spec _ hwf1 x y hx hy
  refine ⟨?_, ?_, ?_, ?_, hwf1, ?_⟩
  · rw [h1, if_pos ⟨rfl, rfl⟩]
  · rw [h1, if_pos ⟨rfl, rfl⟩, cell_state_eq, cell_state_eq]
    by_cases hc : (readCell cells y x).state % 2 = 1 <;> simp [hc]
  · intro j i hji
    rw [h1, if_neg hji]
  · intro j i
    rw [h1]
    by_cases hji : j = y ∧ i = x
    · rw [if_pos hji]
      obtain ⟨rfl, rfl⟩ := hji
      exact ⟨rfl, rfl⟩
    · rw [if_neg hji]
      exact ⟨rfl, rfl⟩
  · intro hbits
    apply grid_ext _ _ hwf2 hwf
    intro j i hj hi
    rw [h2]
    by_cases hji : j = y ∧ i = x
    · rw [if_pos hji, h1, if_pos ⟨rfl, rfl⟩]
      obtain ⟨rfl, rfl⟩ := hji
      exact toggle_state_twice _ (hbits j i hj hi)
    · rw [if_neg hji, h1, if_neg hji]

theorem toggle_cell_flips_witness :
    toggle_cell (toggle_cell init_cells 3 2) 3 2 = init_cells :=
  (toggle_cell_flips init_cells wellFormed_init_cells 3 2 (by decide) (by decide)).2.2.2.2.2
    (fun j i hj hi => by rw [readCell_init_cells j i hj hi]; exact Or.inl rfl)

/-- C12. `init_cells` returns exactly `900 / 20 = 45` rows of `1800 / 20 = 90` cells; the
cell at row `y`, column `x` has state word 0 and stores the position `(x * 20, y * 20 + 100)`,
and both products fit the `i32` they are computed in. -/
theorem init_cells_shape :
    init_cells.length = 45
    ∧ (∀ row ∈ init_cells, row.length = 90)
    ∧ CELLS_HEIGHT = 900 / 20 ∧ CELLS_WIDTH = 1800 / 20
    ∧ (∀ y x, y < 45 → x < 90 →
        readCell init_cells y x = { x := (x : Int) * 20, y := (y : Int) * 20 + 100, state := 0 })
    ∧ (∀ y x, y < 45 → x < 90 →
        (x : Int) * 20 < 2 ^ 31 ∧ (y : Int) * 20 + 100 < 2 ^ 31) := by
  obtain ⟨hl, hr⟩ := wellFormed_init_cells
  refine ⟨by rw [hl, CELLS_HEIGHT_eq], ?_, by decide, by decide, ?_, ?_⟩
  · intro row hrow
    rw [hr row hrow, CELLS_WIDTH_eq]
  · intro y x hy hx
    rw [readCell_init_cells y x (by rw [CELLS_HEIGHT_eq]; exact hy)
      (by rw [CELLS_WIDTH_eq]; exact hx)]
    simp [SQUARE_SIZE, LAYOUT_TOP]
  · intro y x hy hx
    omega

theorem init_cells_shape_witness :
    readCell init_cells 44 89 = { x := 1780, y := 980, state := 0 } :=
  init_cells_shape.2.2.2.2.1 44 89 (by decide) (by decide)

theorem gridReachable_invariant (cells : Grid) (h : GridReachable cells) :
    WellFormed cells ∧ ∀ j i, j < CELLS_HEIGHT → i < CELLS_WIDTH →
      (readCell cells j i).state ≤ 1 := by
  induction h with
  | init =>
    refine ⟨wellFormed_init_cells, ?_⟩
    intro j i hj hi
    rw [readCell_init_cells j i hj hi]
    exact Nat.zero_le 1
  | toggle cells x y _ hx hy ih =>
    obtain ⟨hwf1, h1⟩ := toggle_cell_spec cells ih.1 x y hx hy
    refine ⟨hwf1, ?_⟩
    intro j i hj hi
    rw [h1]
    split_ifs
    · exact Nat.zero_le 1
    · exact le_refl 1
    · exact ih.2 j i hj hi
  | advance cells _ ih =>
    refine ⟨(next_game_move_spec cells ih.1).1, ?_⟩
    intro j i hj hi
    rw [next_game_move_cell cells ih.1 ih.2 j i hj hi]
    simp only []
    split_ifs
    · exact le_refl 1
    · exact Nat.zero_le 1

/-- C14. Every grid reachable from `init_cells` by in-range `toggle_cell` calls and
`next_game_move` calls is a 90x45 grid in which every state word is 0 or 1, so bit 1 and all
higher bits are clear on entry to the next compute pass. -/
theorem reachable_grid_states_are_bits (cells : Grid) (h : GridReachable cells) :
    WellFormed cells
    ∧ (∀ y x, y < CELLS_HEIGHT → x < CELLS_WIDTH →
        (readCell cells y x).state = 0 ∨ (readCell cells y x).state = 1)
    ∧ (∀ y x, y < CELLS_HEIGHT → x < CELLS_WIDTH → (readCell cells y x).state / 2 = 0) := by
  obtain ⟨hwf, hb⟩ := gridReachable_invariant cells h
  refine ⟨hwf, ?_, ?_⟩
  · intro y x hy hx
    have := hb y x hy hx
    omega
  · intro y x hy hx
    have := hb y x hy hx
    omega

theorem reachable_grid_states_are_bits_witness :
    (readCell (next_game_move (toggle_cell init_cells 3 2)) 2 3).state = 0
    ∨ (readCell (next_game_move (toggle_cell init_cells 3 2)) 2 3).state = 1 :=
  (reachable_grid_states_are_bits _
    (GridReachable.advance _
      (GridReachable.toggle _ 3 2 GridReachable.init (by decide) (by decide)))).2.1 2 3
    (by decide) (by decide)

/-- C16. In one iteration of the loop of `main`, if `pressed` of the clear button is true
after the button updates, the grid at the end of the iteration is `init_cells`, all dead,
whatever the play button says and whether or not a generation advance ran before. -/
theorem clear_discards_advance (g : Game) (m : Mouse)
    (h : (main_frame g m).clear_button.pressed = true) :
    (main_frame g m).clear_button = press_button_event g.clear_button m
    ∧ (main_frame g m).play_button = toggle_button_event g.play_button m
    ∧ (main_frame g m).cells = init_cells
    ∧ (∀ y x, y < CELLS_HEIGHT → x < CELLS_WIDTH →
        (readCell (main_frame g m).cells y x).state = 0) := by
  have h2 : (press_button_event g.clear_button m).pressed = true := h
  have hc : (main_frame g m).cells = init_cells := by
    unfold main_frame
    simp only [h2, if_true]
  refine ⟨rfl, rfl, hc, ?_⟩
  intro y x hy hx
  rw [hc, readCell_init_cells y x hy hx]

theorem clear_discards_advance_witness :
    (main_frame
      { cells := toggle_cell init_cells 3 2,
        play_button := toggle_button_event (make_play_button 20 20) play_click,
        clear_button := make_clear_button 1680 20 } clear_click).cells = init_cells :=
  (clear_discards_advance _ clear_click (by decide)).2.2.1

/-! ## Prefixes of the compute pass -/

theorem compute_upto_invariant (cells : Grid) (hwf : WellFormed cells) (y n : Nat)
    (hy : y < CELLS_HEIGHT) (hn : n ≤ CELLS_WIDTH) :
    PartialUpdate (marked_cell cells) cells (compute_upto cells y n) y n :=
  row_loop compute_cell (marked_cell cells) cells y hy
    (fun g x hx h => compute_cell_eq cells g x y hx hy h) _
    (grid_loop compute_cell (marked_cell cells) cells
      (fun g x y hx hy h => compute_cell_eq cells g x y hx hy h) hwf y (Nat.le_of_lt hy))
    n hn

theorem compute_upto_succ (cells : Grid) (y n : Nat) :
    compute_upto cells y (n + 1) = compute_cell (compute_upto cells y n) n y := by
  unfold compute_upto
  rw [List.range_succ, List.foldl_append]
  simp only [List.foldl_cons, List.foldl_nil]

theorem compute_upto_next_row (cells : Grid) (y : Nat) :
    compute_upto cells (y + 1) 0 = compute_upto cells y CELLS_WIDTH := by
  unfold compute_upto
  rw [List.range_succ, List.foldl_append]
  simp only [List.range_zero, List.foldl_cons, List.foldl_nil]

theorem foldl_rows_succ (f : Grid → Nat → Nat → Grid) (cells : Grid) (m w : Nat) :
    (List.range (m + 1)).foldl
        (fun cells y => (List.range w).foldl (fun cells x => f cells x y) cells) cells
      = (List.range w).foldl (fun cells x => f cells x m)
          ((List.range m).foldl
            (fun cells y => (List.range w).foldl (fun cells x => f cells x y) cells) cells) := by
  rw [List.range_succ, List.foldl_append]
  simp only [List.foldl_cons, List.foldl_nil]

theorem compute_upto_full (cells : Grid) :
    compute_upto cells 44 90 = compute_pass cells := by
  unfold compute_upto compute_pass
  rw [CELLS_HEIGHT_eq, CELLS_WIDTH_eq]
  exact (foldl_rows_succ compute_cell cells 44 90).symm

/-- C15. For a 90x45 grid with state words 0 or 1 and every prefix of the compute pass (rows
`0 .. y-1` done, columns `0 .. n-1` of row `y` done): bit 0 of every cell is as before the
call; a visited cell holds its old state word plus 2 if the rule yields alive, else its old
state word, without 8-bit overflow; unvisited cells are unchanged; and `count_neighbors` on
the partly updated grid returns the count of the prior generation. The prefixes `(0, 0)` and
`(44, 90)` are the grid before the pass and after it, and consecutive prefixes differ by one
execution of the loop body. -/
theorem compute_pass_keeps_bit0 (cells : Grid) (hwf : WellFormed cells)
    (hbits : ∀ j i, j < CELLS_HEIGHT → i < CELLS_WIDTH →
      (readCell cells j i).state = 0 ∨ (readCell cells j i).state = 1)
    (y n : Nat) (hy : y < CELLS_HEIGHT) (hn : n ≤ CELLS_WIDTH) :
    (∀ j i, j < CELLS_HEIGHT → i < CELLS_WIDTH →
      cell_state (readCell (compute_upto cells y n) j i) = cell_state (readCell cells j i))
    ∧ (∀ j i, j < CELLS_HEIGHT → i < CELLS_WIDTH →
      readCell (compute_upto cells y n) j i =
        if j < y ∨ (j = y ∧ i < n) then
          { readCell cells j i with
            state := (readCell cells j i).state
              + (if apply_rule (cell_state (readCell cells j i)) (count_neighbors cells i j)
                 then 2 else 0) }
        else readCell cells j i)
    ∧ (∀ j i, j < CELLS_HEIGHT → i < CELLS_WIDTH →
      (readCell (compute_upto cells y n) j i).state < 256
      ∧ (readCell cells j i).state + 2 < 256)
    ∧ (∀ j i, j < CELLS_HEIGHT → i < CELLS_WIDTH →
      count_neighbors (compute_upto cells y n) i j = count_neighbors cells i j)
    ∧ compute_upto cells 0 0 = cells
    ∧ compute_upto cells 44 90 = compute_pass cells
    ∧ compute_upto cells y (n + 1) = compute_cell (compute_upto cells y n) n y
    ∧ compute_upto cells (y + 1) 0 = compute_upto cells y CELLS_WIDTH := by
  obtain ⟨_, hcells⟩ := compute_upto_invariant cells hwf y n hy hn
  have hle : ∀ j i, j < CELLS_HEIGHT → i < CELLS_WIDTH → (readCell cells j i).state ≤ 1 := by
    intro j i hj hi
    rcases hbits j i hj hi with h | h <;> omega
  have hb0 : ∀ j i, j < CELLS_HEIGHT → i < CELLS_WIDTH →
      cell_state (readCell (compute_upto cells y n) j i)
        = cell_state (readCell cells j i) := by
    intro j i hj hi
    rw [hcells j i hj hi]
    by_cases hv : j < y ∨ (j = y ∧ i < n)
    · rw [if_pos hv]
      exact cell_state_marked_cell cells j i
    · rw [if_neg hv]
  have hmark : ∀ j i, j < CELLS_HEIGHT → i < CELLS_WIDTH →
      marked_cell cells j i =
        { readCell cells j i with
          state := (readCell cells j i).state
            + (if apply_rule (cell_state (readCell cells j i)) (count_neighbors cells i j)
               then 2 else 0) } := by
    intro j i hj hi
    have := hle j i hj hi
    unfold marked_cell
    rw [Nat.mod_eq_of_lt (by split_ifs <;> omega)]
  refine ⟨hb0, ?_, ?_, ?_, rfl, compute_upto_full cells, compute_upto_succ cells y n,
    compute_upto_next_row cells y⟩
  · intro j i hj hi
    rw [hcells j i hj hi, hmark j i hj hi]
  · intro j i hj hi
    have := hle j i hj hi
    refine ⟨?_, by omega⟩
    rw [hcells j i hj hi, hmark j i hj hi]
    by_cases hv : j < y ∨ (j = y ∧ i < n)
    · rw [if_pos hv]
      simp only []
      split_ifs <;> omega
    · rw [if_neg hv]
      omega
  · intro j i hj hi
    exact count_neighbors_congr _ _ hb0 i j hi hj

theorem compute_pass_keeps_bit0_witness :
    cell_state (readCell (compute_upto (toggle_cell init_cells 3 2) 2 4) 2 3)
      = cell_state (readCell (toggle_cell init_cells 3 2) 2 3) :=
  (compute_pass_keeps_bit0 (toggle_cell init_cells 3 2)
    (toggle_cell_spec init_cells wellFormed_init_cells 3 2 (by decide) (by decide)).1
    (fun j i hj hi => by
      rw [(toggle_cell_spec init_cells wellFormed_init_cells 3 2 (by decide) (by decide)).2]
      by_cases e : j = 2 ∧ i = 3
      · rw [if_pos e]
        simp only []
        split_ifs
        · exact Or.inl rfl
        · exact Or.inr rfl
      · rw [if_neg e, readCell_init_cells j i hj hi]
        exact Or.inl rfl)
    2 4 (by decide) (by decide)).1 2 3 (by decide) (by decide)

/-! ## Array accesses -/

theorem u64_pred_eq (a : Nat) (h : 0 < a) (h2 : a < 2 ^ 64) : u64_pred a = a - 1 := by
  unfold u64_pred
  omega

theorem u64_succ_eq (a : Nat) (h : a + 1 < 2 ^ 64) : u64_succ a = a + 1 := by
  unfold u64_succ
  omega

theorem mem_guarded_read (g : Bool) (q p : Nat × Nat) (h : p ∈ (if g then [q] else [])) :
    g = true ∧ p = q := by
  cases g
  · simp at h
  · simpa using h

theorem count_neighbors_reads_cases (x y : Nat) (p : Nat × Nat)
    (hp : p ∈ count_neighbors_reads x y) :
    (0 < x ∧ 0 < y ∧ p = (u64_pred y, u64_pred x))
    ∨ (x < CELLS_WIDTH - 1 ∧ 0 < y ∧ p = (u64_pred y, u64_succ x))
    ∨ (0 < x ∧ y < CELLS_HEIGHT - 1 ∧ p = (u64_succ y, u64_pred x))
    ∨ (x < CELLS_WIDTH - 1 ∧ y < CELLS_HEIGHT - 1 ∧ p = (u64_succ y, u64_succ x))
    ∨ (0 < x ∧ p = (y, u64_pred x))
    ∨ (x < CELLS_WIDTH - 1 ∧ p = (y, u64_succ x))
    ∨ (0 < y ∧ p = (u64_pred y, x))
    ∨ (y < CELLS_HEIGHT - 1 ∧ p = (u64_succ y, x)) := by
  simp only [count_neighbors_reads, List.mem_append] at hp
  rcases hp with ((((((hp | hp) | hp) | hp) | hp) | hp) | hp) | hp
  · have := mem_guarded_read _ _ _ hp
    simp only [Bool.and_eq_true, decide_eq_true_eq] at this
    exact Or.inl ⟨this.1.1, this.1.2, this.2⟩
  · have := mem_guarded_read _ _ _ hp
    simp only [Bool.and_eq_true, decide_eq_true_eq] at this
    exact Or.inr (Or.inl ⟨this.1.1, this.1.2, this.2⟩)
  · have := mem_guarded_read _ _ _ hp
    simp only [Bool.and_eq_true, decide_eq_true_eq] at this
    exact Or.inr (Or.inr (Or.inl ⟨this.1.1, this.1.2, this.2⟩))
  · have := mem_guarded_read _ _ _ hp
    simp only [Bool.and_eq_true, decide_eq_true_eq] at this
    exact Or.inr (Or.inr (Or.inr (Or.inl ⟨this.1.1, this.1.2, this.2⟩)))
  · have := mem_guarded_read _ _ _ hp
    simp only [decide_eq_true_eq] at this
    exact Or.inr (Or.inr (Or.inr (Or.inr (Or.inl this))))
  · have := mem_guarded_read _ _ _ hp
    simp only [decide_eq_true_eq] at this
    exact Or.inr (Or.inr (Or.inr (Or.inr (Or.inr (Or.inl this)))))
  · have := mem_guarded_read _ _ _ hp
    simp only [decide_eq_true_eq] at this
    exact Or.inr (Or.inr (Or.inr (Or.inr (Or.inr (Or.inr (Or.inl this))))))
  · have := mem_guarded_read _ _ _ hp
    simp only [decide_eq_true_eq] at this
    exact Or.inr (Or.inr (Or.inr (Or.inr (Or.inr (Or.inr (Or.inr this))))))

theorem count_neighbors_reads_in_range (x y : Nat) (hx : x < CELLS_WIDTH)
    (hy : y < CELLS_HEIGHT) (p : Nat × Nat) (hp : p ∈ count_neighbors_reads x y) :
    p.1 < CELLS_HEIGHT ∧ p.2 < CELLS_WIDTH := by
  rw [CELLS_WIDTH_eq] at hx ⊢
  rw [CELLS_HEIGHT_eq] at hy ⊢
  have hc := count_neighbors_reads_cases x y p hp
  rw [CELLS_WIDTH_eq, CELLS_HEIGHT_eq] at hc
  have e1 : 0 < x → u64_pred x = x - 1 := fun h => u64_pred_eq x h (by omega)
  have e2 : 0 < y → u64_pred y = y - 1 := fun h => u64_pred_eq y h (by omega)
  have e3 : u64_succ x = x + 1 := u64_succ_eq x (by omega)
  have e4 : u64_succ y = y + 1 := u64_succ_eq y (by omega)
  rcases hc with ⟨h1, h2, rfl⟩ | ⟨h1, h2, rfl⟩ | ⟨h1, h2, rfl⟩ | ⟨h1, h2, rfl⟩ | ⟨h1, rfl⟩
    | ⟨h1, rfl⟩ | ⟨h1, rfl⟩ | ⟨h1, rfl⟩
  · simp only [e1 h1, e2 h2]; omega
  · simp only [e3, e2 h2]; omega
  · simp only [e1 h1, e4]; omega
  · simp only [e3, e4]; omega
  · simp only [e1 h1]; omega
  · simp only [e3]; omega
  · simp only [e2 h1]; omega
  · simp only [e4]; omega

theorem filter_length_append {α : Type} (p : α → Bool) (l1 l2 : List α) :
    ((l1 ++ l2).filter p).length = (l1.filter p).length + (l2.filter p).length := by
  rw [List.filter_append, List.length_append]

theorem filter_length_guarded {α : Type} (p : α → Bool) (g : Bool) (a : α) :
    ((if g then [a] else []).filter p).length = (g && p a).toNat := by
  cases g
  · simp
  · cases h : p a <;> simp [List.filter, h]

theorem count_neighbors_eq_reads (cells : Grid) (x y : Nat) (hx : x < CELLS_WIDTH)
    (hy : y < CELLS_HEIGHT) :
    count_neighbors cells x y =
      ((count_neighbors_reads x y).filter
        (fun p => cell_state (readCell cells p.1 p.2))).length := by
  rw [count_neighbors_sum]
  unfold count_neighbors_reads
  simp only [filter_length_append, filter_length_guarded]
  rw [CELLS_WIDTH_eq] at hx
  rw [CELLS_HEIGHT_eq] at hy
  have e3 : u64_succ x = x + 1 := u64_succ_eq x (by omega)
  have e4 : u64_succ y = y + 1 := u64_succ_eq y (by omega)
  rw [e3, e4]
  by_cases h1 : 0 < x
  · rw [u64_pred_eq x h1 (by omega)]
    by_cases h2 : 0 < y
    · rw [u64_pred_eq y h2 (by omega)]
    · have : y = 0 := by omega
      subst this
      simp
  · have : x = 0 := by omega
    subst this
    by_cases h2 : 0 < y
    · rw [u64_pred_eq y h2 (by omega)]
      simp
    · have : y = 0 := by omega
      subst this
      simp

theorem next_game_move_accesses_in_range (p : Nat × Nat) (hp : p ∈ next_game_move_accesses) :
    p.1 < CELLS_HEIGHT ∧ p.2 < CELLS_WIDTH := by
  simp only [next_game_move_accesses, List.mem_append, List.mem_flatMap, List.mem_range,
    List.mem_map, List.mem_cons, List.mem_singleton, List.not_mem_nil, or_false] at hp
  rcases hp with ⟨y, hy, x, hx, (h | h | h)⟩ | ⟨y, hy, x, hx, h⟩
  · exact count_neighbors_reads_in_range x y hx hy p h
  · subst h; exact ⟨hy, hx⟩
  · subst h; exact ⟨hy, hx⟩
  · subst h; exact ⟨hy, hx⟩

/-- C17. For x < 90 and y < 45 every read `cells[row][col]` of `count_neighbors` has
`row < 45` and `col < 90`, and the reads listed are the ones the count is made of. The wrapped
index `x - 1` at `x = 0` (and `y - 1` at `y = 0`) is never used, nor `x + 1` at `x = 89` or
`y + 1` at `y = 44`. Every access of `next_game_move` is in range. -/
theorem count_neighbors_reads_safe (x y : Nat) (hx : x < CELLS_WIDTH) (hy : y < CELLS_HEIGHT) :
    (∀ p ∈ count_neighbors_reads x y, p.1 < 45 ∧ p.2 < 90)
    ∧ (∀ cells : Grid, count_neighbors cells x y =
        ((count_neighbors_reads x y).filter
          (fun p => cell_state (readCell cells p.1 p.2))).length)
    ∧ (x = 0 → ∀ p ∈ count_neighbors_reads x y, p.2 ≠ u64_pred x)
    ∧ (y = 0 → ∀ p ∈ count_neighbors_reads x y, p.1 ≠ u64_pred y)
    ∧ (x = 89 → ∀ p ∈ count_neighbors_reads x y, p.2 ≠ u64_succ x)
    ∧ (y = 44 → ∀ p ∈ count_neighbors_reads x y, p.1 ≠ u64_succ y)
    ∧ (∀ p ∈ next_game_move_accesses, p.1 < 45 ∧ p.2 < 90) := by
  have hr : ∀ p ∈ count_neighbors_reads x y, p.1 < 45 ∧ p.2 < 90 := by
    intro p hp
    have := count_neighbors_reads_in_range x y hx hy p hp
    rw [CELLS_WIDTH_eq, CELLS_HEIGHT_eq] at this
    exact this
  refine ⟨hr, fun cells => count_neighbors_eq_reads cells x y hx hy, ?_, ?_, ?_, ?_, ?_⟩
  · intro h0 p hp he
    have := (hr p hp).2
    rw [he, h0] at this
    revert this
    decide
  · intro h0 p hp he
    have := (hr p hp).1
    rw [he, h0] at this
    revert this
    decide
  · intro h0 p hp he
    have := (hr p hp).2
    rw [he, h0] at this
    revert this
    decide
  · intro h0 p hp he
    have := (hr p hp).1
    rw [he, h0] at this
    revert this
    decide
  · intro p hp
    have := next_game_move_accesses_in_range p hp
    rw [CELLS_WIDTH_eq, CELLS_HEIGHT_eq] at this
    exact this

theorem count_neighbors_reads_safe_witness :
    (∀ p ∈ count_neighbors_reads 0 0, p.1 < 45 ∧ p.2 < 90)
    ∧ (∀ p ∈ count_neighbors_reads 89 44, p.1 < 45 ∧ p.2 < 90) :=
  ⟨(count_neighbors_reads_safe 0 0 (by decide) (by decide)).1,
   (count_neighbors_reads_safe 89 44 (by decide) (by decide)).1⟩

/-! ## Invariants of the two buttons -/

theorem press_button_event_cases (b : Button) (m : Mouse) :
    press_button_event b m =
      if (!b.show_pressed && mouse_pressed_button b m) = true then
        { b with pressed := true, show_pressed := true }
      else if b.pressed_timer > 30 then
        { b with pressed := false, show_pressed := false, pressed_timer := 0 }
      else { b with pressed := false, pressed_timer := b.pressed_timer + 1 } := rfl

theorem press_button_event_timer_bounds (b : Button) (m : Mouse)
    (h : 0 ≤ b.pressed_timer ∧ b.pressed_timer ≤ 31) :
    0 ≤ (press_button_event b m).pressed_timer ∧ (press_button_event b m).pressed_timer ≤ 31 := by
  rw [press_button_event_cases]
  split_ifs with h1 h2
  · exact h
  · simp only []
    omega
  · simp only []
    omega

theorem pressReachable_invariant (x y : Int) (b : Button)
    (h : PressReachable (make_clear_button x y) b) :
    (0 ≤ b.pressed_timer ∧ b.pressed_timer ≤ 31)
    ∧ (b.pressed = true → b.show_pressed = true) := by
  induction h with
  | init => simp [make_clear_button, init_button]
  | step b m _ ih =>
    exact ⟨press_button_event_timer_bounds b m ih.1, press_button_event_latches b m⟩

/-- C18. Every state of the clear button reachable from its initial state by calls of
`press_button_event` with arbitrary inputs has `0 ≤ pressed_timer ≤ 31`, and `pressed` implies
`show_pressed`; the increment `pressed_timer + 1` stays below `2^31`, so the `i32` timer
never overflows. -/
theorem press_button_timer_bounded (x y : Int) (b : Button)
    (h : PressReachable (make_clear_button x y) b) :
    0 ≤ b.pressed_timer ∧ b.pressed_timer ≤ 31
    ∧ (b.pressed = true → b.show_pressed = true)
    ∧ b.pressed_timer + 1 < 2 ^ 31 :=
  ⟨(pressReachable_invariant x y b h).1.1, (pressReachable_invariant x y b h).1.2,
    (pressReachable_invariant x y b h).2, by
      have := (pressReachable_invariant x y b h).1.2
      omega⟩

theorem press_button_timer_bounded_witness :
    (press_frames (make_clear_button 1680 20) [idle_frame, clear_click, idle_frame]).pressed_timer
      ≤ 31 :=
  (press_button_timer_bounded 1680 20 _ (pressReachable_press_frames _ _)).2.1

theorem press_button_event_latched (b : Button) (m : Mouse) (hs : b.show_pressed = true) :
    press_button_event b m =
      if b.pressed_timer > 30 then
        { b with pressed := false, show_pressed := false, pressed_timer := 0 }
      else { b with pressed := false, pressed_timer := b.pressed_timer + 1 } := by
  unfold press_button_event
  rw [hs]
  simp

theorem press_frames_latched (d : Nat) : ∀ (b : Button) (ms : List Mouse),
    b.show_pressed = true → b.pressed_timer + d = 31 → d < ms.length →
    (∀ j, j ≤ d → (press_frames b (ms.take j)).show_pressed = true)
    ∧ (press_frames b (ms.take (d + 1))).show_pressed = false := by
  induction d with
  | zero =>
    intro b ms hs ht hlen
    refine ⟨?_, ?_⟩
    · intro j hj
      have : j = 0 := by omega
      subst this
      simpa [press_frames] using hs
    · match ms, hlen with
      | m :: ms, _ =>
        simp only [press_frames, List.take_succ_cons, List.take_zero, List.foldl_cons,
          List.foldl_nil, zero_add]
        rw [press_button_event_latched b m hs, if_pos (by omega)]
  | succ d ih =>
    intro b ms hs ht hlen
    match ms, hlen with
    | m :: ms, hlen =>
      have hstep : press_button_event b m
          = { b with pressed := false, pressed_timer := b.pressed_timer + 1 } := by
        rw [press_button_event_latched b m hs, if_neg (by omega)]
      have hs2 : (press_button_event b m).show_pressed = true := by rw [hstep]; exact hs
      have ht2 : (press_button_event b m).pressed_timer + d = 31 := by
        rw [hstep]; simp only []; omega
      obtain ⟨ih1, ih2⟩ := ih (press_button_event b m) ms hs2 ht2
        (by simp only [List.length_cons] at hlen; omega)
      refine ⟨?_, ?_⟩
      · intro j hj
        match j with
        | 0 => simpa [press_frames] using hs
        | j + 1 =>
          simp only [press_frames, List.take_succ_cons, List.foldl_cons]
          exact ih1 j (by omega)
      · simp only [press_frames, List.take_succ_cons, List.foldl_cons]
        exact ih2

/-- C19. From every reachable state of the clear button with `show_pressed = true`, and for
every sequence of inputs, `show_pressed` is false after some `k` further calls with
`1 ≤ k ≤ 32`; precisely it stays true for the first `31 - pressed_timer` calls and is false
after call `32 - pressed_timer`. While the button is latched the result of a call does not
depend on the input, so clicks neither prolong the flash nor restart the timer. -/
theorem press_button_unlatches (x y : Int) (b : Button)
    (h : PressReachable (make_clear_button x y) b) (hs : b.show_pressed = true)
    (ms : List Mouse) (hlen : 32 ≤ ms.length) :
    (∃ k, 1 ≤ k ∧ k ≤ 32 ∧ (press_frames b (ms.take k)).show_pressed = false)
    ∧ (press_frames b (ms.take (32 - b.pressed_timer.toNat))).show_pressed = false
    ∧ (∀ j, j < 32 - b.pressed_timer.toNat →
        (press_frames b (ms.take j)).show_pressed = true)
    ∧ (∀ m1 m2 : Mouse, press_button_event b m1 = press_button_event b m2) := by
  have hb := (pressReachable_invariant x y b h).1
  have key := press_frames_latched (31 - b.pressed_timer.toNat) b ms hs (by omega) (by omega)
  have e : 31 - b.pressed_timer.toNat + 1 = 32 - b.pressed_timer.toNat := by omega
  rw [e] at key
  refine ⟨⟨32 - b.pressed_timer.toNat, by omega, by omega, key.2⟩, key.2, ?_, ?_⟩
  · intro j hj
    exact key.1 j (by omega)
  · intro m1 m2
    rw [press_button_event_latched b m1 hs, press_button_event_latched b m2 hs]

set_option maxRecDepth 100000 in
theorem press_button_unlatches_witness :
    (press_frames (press_frames (make_clear_button 1680 20) [clear_click])
      ((List.replicate 32 clear_click).take
        (32 - (press_frames (make_clear_button 1680 20)
          [clear_click]).pressed_timer.toNat))).show_pressed = false :=
  (press_button_unlatches 1680 20 (press_frames (make_clear_button 1680 20) [clear_click])
    (pressReachable_press_frames _ _) (by decide) (List.replicate 32 clear_click)
    (by decide)).2.1

/-- C13, evaluated where the code departs from the claim. After one frame without a click
the clear button is in a reachable state with `show_pressed = false` and `pressed_timer = 1`.
A qualifying click then sets `pressed` and `show_pressed`, and leaves `pressed_timer` at 1:
the click branch of `press_button_event` returns without resetting the timer. -/
theorem press_click_keeps_timer :
    PressReachable (make_clear_button 1680 20)
      (press_frames (make_clear_button 1680 20) [idle_frame])
    ∧ (press_frames (make_clear_button 1680 20) [idle_frame]).show_pressed = false
    ∧ mouse_pressed_button (press_frames (make_clear_button 1680 20) [idle_frame]) clear_click
        = true
    ∧ (press_button_event
        (press_frames (make_clear_button 1680 20) [idle_frame]) clear_click).pressed = true
    ∧ (press_button_event
        (press_frames (make_clear_button 1680 20) [idle_frame]) clear_click).show_pressed = true
    ∧ (press_button_event
        (press_frames (make_clear_button 1680 20) [idle_frame]) clear_click).pressed_timer = 1
    ∧ (press_button_event
        (press_frames (make_clear_button 1680 20) [idle_frame]) clear_click).pressed_timer ≠ 0 :=
  ⟨pressReachable_press_frames _ _, by decide, by decide, by decide, by decide, by decide,
    by decide⟩

theorem toggle_button_event_invariant (b : Button) (m : Mouse)
    (h : b.show_pressed = b.pressed ∧ b.pressed_timer = 0) :
    (toggle_button_event b m).show_pressed = (toggle_button_event b m).pressed
    ∧ (toggle_button_event b m).pressed_timer = 0 := by
  unfold toggle_button_event
  split_ifs
  · exact ⟨rfl, h.2⟩
  · exact h

theorem toggle_frames_invariant (ms : List Mouse) : ∀ (b : Button),
    b.show_pressed = b.pressed ∧ b.pressed_timer = 0 →
    (toggle_frames b ms).show_pressed = (toggle_frames b ms).pressed
    ∧ (toggle_frames b ms).pressed_timer = 0 := by
  induction ms with
  | nil => intro b h; exact h
  | cons m ms ih =>
    intro b h
    exact ih (toggle_button_event b m) (toggle_button_event_invariant b m h)

/-- C20. Every state of the play button reachable from its initial state by calls of
`toggle_button_event` has `show_pressed = pressed` and `pressed_timer = 0`. -/
theorem toggle_button_display_agrees (x y : Int) (ms : List Mouse) :
    (toggle_frames (make_play_button x y) ms).show_pressed
      = (toggle_frames (make_play_button x y) ms).pressed
    ∧ (toggle_frames (make_play_button x y) ms).pressed_timer = 0 :=
  toggle_frames_invariant ms (make_play_button x y) ⟨rfl, rfl⟩

end GameOfLife
